import Mathlib

set_option maxRecDepth 100000

/-!
# pyblheli — shallow embedding and verification

This file embeds the protocol and configuration codec layer of the
`pyblheli` repository (files `blheli_protocol.py`, `blheli_silabs.py`,
`blheli_4way.py`) and settles the frozen claims about it.

The Python code builds frames with the `construct` library (version 2.10
semantics, which the embedding follows):
* `Struct.parse` reads fields sequentially from the byte stream and does
  not require the stream to be exhausted — trailing bytes are ignored;
* `Enum` parsing of a value not in the mapping does not fail: it returns
  the raw integer (`EnumInteger`); building accepts a known label or any
  integer, and fails (`MappingError`) on an unknown label;
* `Const` checks the parsed byte against the constant and fails on
  mismatch;
* `Flag` parses one byte to the Boolean `byte ≠ 0` and builds `0x01` /
  `0x00` from a truthy / falsy value;
* `Padding(n, pattern)` skips `n` bytes on parse (content ignored, but
  the bytes must be present) and writes the pattern byte repeated on
  build;
* `PaddedString(n, "utf8")` reads `n` bytes, strips trailing NUL bytes
  and decodes UTF-8 (failing on invalid UTF-8); building re-encodes and
  pads with NUL up to `n`, failing if the encoding exceeds `n` bytes;
* integer fields (`Byte`, `Int8ul`, `Int16ub`) fail to build when the
  value is out of range.

Python dynamic values appearing in parsed `construct` containers are
modelled by the `PyVal` sum type.  Byte strings are modelled as
`List Nat` with every element `< 256` where it matters.
-/

namespace PyBlheli

/-- A Python value as stored in a parsed `construct` container.
`label` models `str` (including construct's `EnumIntegerString`);
`bytes` models a `str` that we keep as its UTF-8 byte sequence
(the three EEPROM text fields). -/
inductive PyVal where
  | int (n : Nat)
  | bool (b : Bool)
  | label (s : String)
  | bytes (bs : List Nat)
deriving DecidableEq, Repr

/-! ## Byte-stream reading primitives (construct stream semantics) -/

/-- Read one byte at `pos`; fails (like construct's `StreamError`) when the
stream is exhausted. -/
def readByte (input : List Nat) (pos : Nat) : Option (Nat × Nat) :=
  if pos < input.length then some (input.getD pos 0, pos + 1) else none

/-- Read a big-endian 16-bit unsigned integer (`Int16ub`). -/
def readU16be (input : List Nat) (pos : Nat) : Option (Nat × Nat) :=
  if pos + 2 ≤ input.length then
    some (input.getD pos 0 * 256 + input.getD (pos + 1) 0, pos + 2)
  else none

/-- Read `n` raw bytes. -/
def readChunk (input : List Nat) (pos n : Nat) : Option (List Nat × Nat) :=
  if pos + n ≤ input.length then some ((input.drop pos).take n, pos + n) else none

/-- Big-endian 16-bit serialization. -/
def u16be (v : Nat) : List Nat := [v / 256 % 256, v % 256]

/-! ## CRC16/XMODEM (crcmod.mkCrcFun(0x11021, rev=False, initCrc=0, xorOut=0)) -/

/-- One shift step of the bitwise CRC16 computation with polynomial 0x1021. -/
def crc16Shift (crc : Nat) : Nat :=
  if crc &&& 0x8000 ≠ 0 then ((crc <<< 1) ^^^ 0x1021) &&& 0xFFFF
  else (crc <<< 1) &&& 0xFFFF

/-- Absorb one data byte into the CRC state. -/
def crc16Byte (crc b : Nat) : Nat :=
  crc16Shift^[8] (crc ^^^ (b <<< 8))

/-- CRC16/XMODEM of a byte sequence: init 0x0000, poly 0x1021, no
reflection, no output XOR. -/
def CRC16_XMODEM (data : List Nat) : Nat :=
  data.foldl crc16Byte 0

/-! ## Enum tables (`construct.Enum` mappings from the source) -/

/-- `BLHeliProtocol.COMMAND_ENUM`: opcode name ↔ byte. -/
def COMMAND_ENUM : List (String × Nat) :=
  [("interface_test_alive", 0x30),
   ("protocol_get_version", 0x31),
   ("interface_get_name", 0x32),
   ("interface_get_version", 0x33),
   ("interface_exit", 0x34),
   ("device_reset", 0x35),
   ("device_init_flash", 0x37),
   ("device_erase_all", 0x38),
   ("device_page_erase", 0x39),
   ("device_read", 0x3a),
   ("device_write", 0x3b),
   ("device_c2ck_low", 0x3c),
   ("device_read_eeprom", 0x3d),
   ("device_write_eeprom", 0x3e),
   ("interface_set_mode", 0x3f)]

/-- `BLHeliProtocol.ACK_ENUM`: response status name ↔ byte. -/
def ACK_ENUM : List (String × Nat) :=
  [("ok", 0x00),
   ("invalid_command", 0x02),
   ("invalid_crc", 0x03),
   ("verify_error", 0x04),
   ("invalid_channel", 0x08),
   ("invalid_param", 0x09),
   ("general_error", 0x0f)]

/-- The `mode` enum of the `device_init_flash` response payload. -/
def MODE_ENUM : List (String × Nat) :=
  [("SiLabsC2", 0), ("SiLabsBLB", 1), ("AtmelBLB", 2), ("AtmelSK", 3)]

/-- Look up the value of a label in an enum table. -/
def enumLookupLabel (table : List (String × Nat)) (s : String) : Option Nat :=
  (table.find? (fun kv => kv.1 = s)).map Prod.snd

/-- Look up the label of a value in an enum table. -/
def enumLookupValue (table : List (String × Nat)) (v : Nat) : Option String :=
  (table.find? (fun kv => kv.2 = v)).map Prod.fst

/-- construct `Enum` parse adapter: a mapped value decodes to its label
(`EnumIntegerString`), an unmapped value passes through as a raw integer
(`EnumInteger`) — no error. -/
def enumDecode (table : List (String × Nat)) (v : Nat) : PyVal :=
  match enumLookupValue table v with
  | some s => .label s
  | none => .int v

/-- construct `Enum` build adapter: a known label encodes to its value, an
integer (Python `bool` is an `int` subclass) passes through, and an
unknown label raises `MappingError` (`none`). -/
def enumEncode (table : List (String × Nat)) (v : PyVal) : Option Nat :=
  match v with
  | .label s => enumLookupLabel table s
  | .int n => some n
  | .bool b => some (cond b 1 0)
  | .bytes _ => none

/-! ## Frame structures (`BLHeliProtocol.REQUEST` / `RESPONSE`) -/

/-- Frame start bytes from the source. -/
def REQUEST_START_BYTE : Nat := 0x2f

def RESPONSE_START_BYTE : Nat := 0x2e

/-- A parsed frame container (the fields produced by `RESPONSE.parse`;
requests parsed with `REQUEST.parse` have `ack = none`). -/
structure Frame where
  start_byte : Nat
  command : PyVal
  address : Nat
  payload : List Nat
  ack : Option PyVal
  crc : Nat
deriving DecidableEq, Repr

/-- `RESPONSE.parse` per construct: `Const(0x2E)`, command enum byte,
`Int16ub` address, `PrefixedArray(Int8ul, Byte)` payload, ack enum byte,
`Int16ub` CRC.  Trailing input bytes are ignored (construct does not
require stream exhaustion). -/
def RESPONSE_parse (input : List Nat) : Option Frame := do
  let (sb, p) ← readByte input 0
  if sb ≠ RESPONSE_START_BYTE then none else do
  let (cmd, p) ← readByte input p
  let (addr, p) ← readU16be input p
  let (n, p) ← readByte input p
  let (pl, p) ← readChunk input p n
  let (ack, p) ← readByte input p
  let (crc, _) ← readU16be input p
  some ⟨RESPONSE_START_BYTE, enumDecode COMMAND_ENUM cmd, addr, pl,
        some (enumDecode ACK_ENUM ack), crc⟩

/-- `REQUEST.parse` per construct: the same layout without the ack byte.
The source defines this structure (it only ever builds with it; construct
gives every `Struct` a parser as well). -/
def REQUEST_parse (input : List Nat) : Option Frame := do
  let (sb, p) ← readByte input 0
  if sb ≠ REQUEST_START_BYTE then none else do
  let (cmd, p) ← readByte input p
  let (addr, p) ← readU16be input p
  let (n, p) ← readByte input p
  let (pl, p) ← readChunk input p n
  let (crc, _) ← readU16be input p
  some ⟨REQUEST_START_BYTE, enumDecode COMMAND_ENUM cmd, addr, pl, none, crc⟩

/-- `REQUEST.build` per construct: encodes `0x2F`, the command (a label
looked up in the enum, failing on an unknown one), the 16-bit address,
the length-prefixed payload (failing when the length or a byte is out of
range), and the given CRC. -/
def REQUEST_build (command : String) (address : Nat) (payload : List Nat)
    (crc : Nat) : Option (List Nat) := do
  let op ← enumLookupLabel COMMAND_ENUM command
  if address < 65536 ∧ payload.length < 256 ∧ payload.all (· < 256) ∧ crc < 65536 then
    some ([REQUEST_START_BYTE, op] ++ u16be address ++ [payload.length] ++ payload ++ u16be crc)
  else none

/-- `BLHeliProtocol.build`: encode once with a dummy CRC, compute
CRC16/XMODEM over all bytes but the last two, re-encode with the real
CRC.  Any exception becomes a `BLHeliEncodingError`. -/
def build (command : String) (address : Nat) (payload : List Nat) :
    Except String (List Nat) :=
  match REQUEST_build command address payload 0 with
  | none => .error "Encoding error"
  | some frame0 =>
    let crc := CRC16_XMODEM (frame0.take (frame0.length - 2))
    match REQUEST_build command address payload crc with
    | none => .error "Encoding error"
    | some frame => .ok frame

/-- `BLHeliProtocol.parse`: rejects the empty input, parses the response
structure (any construct exception becomes a `BLHeliDecodingError`),
checks the start byte (dead code: `Const` already checked it), and
checks the parsed CRC field against CRC16/XMODEM of all input bytes but
the last two. -/
def parse (frame : List Nat) : Except String Frame :=
  if frame.length = 0 then .error "Null length frame"
  else match RESPONSE_parse frame with
    | none => .error "Decoding error"
    | some parsed =>
      if parsed.start_byte ≠ RESPONSE_START_BYTE then .error "Invalid start byte"
      else if parsed.crc ≠ CRC16_XMODEM (frame.take (frame.length - 2)) then
        .error "Invalid crc"
      else .ok parsed

/-! ## Payload structures and `parse_payload` -/

/-- A decoded payload: either the raw bytes (for a command with no
registered shape) or one of the structured shapes from the
`REQUEST_PAYLOAD` / `RESPONSE_PAYLOAD` tables. -/
inductive Payload where
  | raw (bs : List Nat)
  | escChannel (v : Nat)
  | pageNumber (v : Nat)
  | length (v : Nat)
  | writeData (bs : List Nat)
  | initFlash (hiSign loSign bootMsg : Nat) (mode : PyVal)
deriving DecidableEq, Repr

/-- Parse a `Struct("esc_channel" / Int8ul)`-style single-byte payload
shape (trailing bytes ignored by construct). -/
def parseOneByte (mk : Nat → Payload) (bs : List Nat) : Option Payload := do
  let (v, _) ← readByte bs 0
  some (mk v)

/-- Parse the `PrefixedArray(Int8ul, Byte)` payload shape of
`device_write` / `device_write_eeprom`. -/
def parsePrefixedBytes (bs : List Nat) : Option Payload := do
  let (n, p) ← readByte bs 0
  let (data, _) ← readChunk bs p n
  some (.writeData data)

/-- Parse the `device_init_flash` response payload: two signature bytes,
a boot-message byte, and the mode enum byte. -/
def parseInitFlash (bs : List Nat) : Option Payload := do
  let (hi, p) ← readByte bs 0
  let (lo, p) ← readByte bs p
  let (boot, p) ← readByte bs p
  let (m, _) ← readByte bs p
  some (.initFlash hi lo boot (enumDecode MODE_ENUM m))

/-- `BLHeliProtocol.REQUEST_PAYLOAD`: per-command payload shape for
request frames. -/
def REQUEST_PAYLOAD (command : String) : Option (List Nat → Option Payload) :=
  if command = "device_reset" then some (parseOneByte .escChannel)
  else if command = "device_page_erase" then some (parseOneByte .pageNumber)
  else if command = "device_read" then some (parseOneByte .length)
  else if command = "device_write" then some parsePrefixedBytes
  else if command = "device_c2ck_low" then some (parseOneByte .escChannel)
  else if command = "device_read_eeprom" then some (parseOneByte .length)
  else if command = "device_write_eeprom" then some parsePrefixedBytes
  else if command = "interface_set_mode" then some (parseOneByte .escChannel)
  else none

/-- `BLHeliProtocol.RESPONSE_PAYLOAD`: per-command payload shape for
response frames (`device_init_flash` only). -/
def RESPONSE_PAYLOAD (command : String) : Option (List Nat → Option Payload) :=
  if command = "device_init_flash" then some parseInitFlash else none

/-- `BLHeliProtocol.parse_payload`: select the request or response table
by the frame's start byte, look the command up (an `EnumInteger`, i.e. a
raw unmapped opcode, is never a key of the string-keyed tables) and
decode the raw payload with the registered shape; a command with no
registered shape yields the raw payload unchanged, and a shape that
fails to parse raises a `BLHeliDecodingError`. -/
def parse_payload (frame : Frame) : Except String Payload :=
  let table := if frame.start_byte = REQUEST_START_BYTE then REQUEST_PAYLOAD
               else RESPONSE_PAYLOAD
  match frame.command with
  | .label s =>
    match table s with
    | some shape =>
      match shape frame.payload with
      | some v => .ok v
      | none => .error "Failed to parse payload"
    | none => .ok (.raw frame.payload)
  | _ => .ok (.raw frame.payload)

/-! ## UTF-8 validity (Python's strict `bytes.decode("utf8")`) -/

/-- A UTF-8 continuation byte. -/
def utf8Cont (b : Nat) : Bool := 0x80 ≤ b && b ≤ 0xBF

/-- RFC 3629 UTF-8 validity, fuel-based recursion (every step consumes at
least one byte and spends one unit of fuel, so fuel `≥` length never runs
out; the fuel keeps the recursion structural so that it reduces in the
kernel). -/
def utf8ValidAux : Nat → List Nat → Bool
  | _, [] => true
  | 0, _ :: _ => false
  | fuel + 1, b :: rest =>
    if b ≤ 0x7F then utf8ValidAux fuel rest
    else if 0xC2 ≤ b && b ≤ 0xDF then
      match rest with
      | c1 :: r => utf8Cont c1 && utf8ValidAux fuel r
      | [] => false
    else if b = 0xE0 then
      match rest with
      | c1 :: c2 :: r => (0xA0 ≤ c1 && c1 ≤ 0xBF) && utf8Cont c2 && utf8ValidAux fuel r
      | _ => false
    else if (0xE1 ≤ b && b ≤ 0xEC) || b = 0xEE || b = 0xEF then
      match rest with
      | c1 :: c2 :: r => utf8Cont c1 && utf8Cont c2 && utf8ValidAux fuel r
      | _ => false
    else if b = 0xED then
      match rest with
      | c1 :: c2 :: r => (0x80 ≤ c1 && c1 ≤ 0x9F) && utf8Cont c2 && utf8ValidAux fuel r
      | _ => false
    else if b = 0xF0 then
      match rest with
      | c1 :: c2 :: c3 :: r =>
        (0x90 ≤ c1 && c1 ≤ 0xBF) && utf8Cont c2 && utf8Cont c3 && utf8ValidAux fuel r
      | _ => false
    else if 0xF1 ≤ b && b ≤ 0xF3 then
      match rest with
      | c1 :: c2 :: c3 :: r => utf8Cont c1 && utf8Cont c2 && utf8Cont c3 && utf8ValidAux fuel r
      | _ => false
    else if b = 0xF4 then
      match rest with
      | c1 :: c2 :: c3 :: r =>
        (0x80 ≤ c1 && c1 ≤ 0x8F) && utf8Cont c2 && utf8Cont c3 && utf8ValidAux fuel r
      | _ => false
    else false

/-- RFC 3629 UTF-8 validity as enforced by Python's strict UTF-8 codec:
no overlong forms, no surrogates, nothing above U+10FFFF. -/
def utf8Valid (l : List Nat) : Bool := utf8ValidAux l.length l

/-- Strip trailing NUL bytes (construct `NullStripped` with pad `\x00`). -/
def rstrip0 (bs : List Nat) : List Nat :=
  (bs.reverse.dropWhile (· == 0)).reverse

/-- UTF-8 encode a Lean string (used only when a Python `str` value is
built into a `PaddedString` field). -/
def strToBytes (s : String) : List Nat :=
  s.toUTF8.toList.map (fun b => b.toNat)

/-! ## EEPROM layout enums (`BlHeliSilabs.EEPROM_LAYOUT`) -/

def STARTUP_POWER_ENUM : List (String × Nat) :=
  [("0.031", 1), ("0.047", 2), ("0.063", 3), ("0.094", 4), ("0.125", 5),
   ("0.188", 6), ("0.25", 7), ("0.38", 8), ("0.50", 9), ("0.75", 10),
   ("1.00", 11), ("1.25", 12), ("1.50", 13)]

def MOTOR_DIRECTION_ENUM : List (String × Nat) :=
  [("normal", 1), ("reversed", 2), ("bidir", 3), ("bidir_reversed", 4)]

/-- The 16-bit `mode` enum (parsed with `Int16ub`). -/
def MODE16_ENUM : List (String × Nat) :=
  [("main", 0xA55A), ("tail", 0x5AA5), ("multi", 0x55AA)]

def COMMUTATION_TIMING_ENUM : List (String × Nat) :=
  [("low", 1), ("medium_low", 2), ("medium", 3), ("medium_high", 4), ("high", 5)]

def BEACON_DELAY_ENUM : List (String × Nat) :=
  [("1_min", 1), ("2_min", 2), ("5_min", 3), ("10_min", 4), ("infinite", 5)]

def DEMAG_COMPENSATION_ENUM : List (String × Nat) :=
  [("off", 1), ("low", 2), ("high", 3)]

def TEMPERATURE_PROTECTION_ENUM : List (String × Nat) :=
  [("disabled", 0), ("80°", 1), ("90°", 2), ("100°", 3), ("110°", 4),
   ("120°", 5), ("130°", 6), ("140°", 7)]

/-! ## EEPROM configuration container -/

/-- The parsed `EEPROM_LAYOUT` container: one `PyVal` per named field, in
source order (reserved `Padding` regions carry no field). -/
structure EepromConfig where
  main_revision : PyVal
  sub_revision : PyVal
  layout_revision : PyVal
  startup_power : PyVal
  motor_direction : PyVal
  mode : PyVal
  programming_by_tx : PyVal
  commutation_timing : PyVal
  ppm_min_throttle : PyVal
  ppm_max_throttle : PyVal
  beep_strength : PyVal
  beacon_strength : PyVal
  beacon_delay : PyVal
  demag_compensation : PyVal
  ppm_center_throttle : PyVal
  temperature_protection : PyVal
  low_rpm_power_protection : PyVal
  brake_on_stop : PyVal
  led_control : PyVal
  layout : PyVal
  mcu : PyVal
  name : PyVal
deriving DecidableEq, Repr

/-- Read the byte at a fixed offset of the EEPROM image. -/
def eeByte (input : List Nat) (off : Nat) : Nat := input.getD off 0

/-- Read a 16-byte `PaddedString` region of the EEPROM image, trailing
NUL bytes stripped. -/
def eeText (input : List Nat) (off : Nat) : List Nat :=
  rstrip0 ((input.drop off).take 16)

/-- `EEPROM_LAYOUT.parse` (construct semantics): 112-byte fixed layout,
fields read sequentially, `Padding` bytes skipped (content ignored),
enums decoded with unmapped values passing through as integers, `Flag`
bytes decoded to `byte ≠ 0`, and the three 16-byte `PaddedString` fields
NUL-stripped and checked for UTF-8 validity.  Every field of the layout
has a fixed size, so the sequential stream reads are the reads at the
fixed offsets annotated in the source, and the whole structure parses
exactly when at least `0x70 = 112` bytes are present (trailing input
beyond 112 bytes is ignored by construct).  In Python an invalid text
field raises at its own offset; since every failure collapses to `none`
here, checking the three text fields after the reads is equivalent. -/
def eepromParse (input : List Nat) : Option EepromConfig :=
  if 112 ≤ input.length then
    if utf8Valid (eeText input 0x40) && utf8Valid (eeText input 0x50) &&
        utf8Valid (eeText input 0x60) then
      some ⟨.int (eeByte input 0x00), .int (eeByte input 0x01), .int (eeByte input 0x02),
            enumDecode STARTUP_POWER_ENUM (eeByte input 0x09),
            enumDecode MOTOR_DIRECTION_ENUM (eeByte input 0x0B),
            enumDecode MODE16_ENUM (eeByte input 0x0D * 256 + eeByte input 0x0E),
            .bool (eeByte input 0x0F ≠ 0),
            enumDecode COMMUTATION_TIMING_ENUM (eeByte input 0x15),
            .int (eeByte input 0x19), .int (eeByte input 0x1A),
            .int (eeByte input 0x1B), .int (eeByte input 0x1C),
            enumDecode BEACON_DELAY_ENUM (eeByte input 0x1D),
            enumDecode DEMAG_COMPENSATION_ENUM (eeByte input 0x1F),
            .int (eeByte input 0x21),
            enumDecode TEMPERATURE_PROTECTION_ENUM (eeByte input 0x23),
            .bool (eeByte input 0x24 ≠ 0), .bool (eeByte input 0x27 ≠ 0),
            .bool (eeByte input 0x28 ≠ 0),
            .bytes (eeText input 0x40), .bytes (eeText input 0x50),
            .bytes (eeText input 0x60)⟩
    else none
  else none

/-- Build a `Byte` field (`struct.pack("B", value)`): integers must be in
range, Python `bool` is an `int` subclass, a `str` raises. -/
def byteBuild (v : PyVal) : Option Nat :=
  match v with
  | .int n => if n < 256 then some n else none
  | .bool b => some (cond b 1 0)
  | _ => none

/-- Build an `Enum(Byte, ...)` field. -/
def enumByteBuild (table : List (String × Nat)) (v : PyVal) : Option Nat := do
  let n ← enumEncode table v
  if n < 256 then some n else none

/-- Build an `Enum(Int16ub, ...)` field. -/
def enumU16Build (table : List (String × Nat)) (v : PyVal) : Option Nat := do
  let n ← enumEncode table v
  if n < 65536 then some n else none

/-- Python truthiness of a `PyVal` (used by `Flag` build). -/
def pyTruthy (v : PyVal) : Bool :=
  match v with
  | .int n => n ≠ 0
  | .bool b => b
  | .label s => s ≠ ""
  | .bytes bs => bs ≠ []

/-- Build a `Flag` field: `b"\x01"` for truthy, `b"\x00"` for falsy. -/
def flagBuild (v : PyVal) : List Nat :=
  cond (pyTruthy v) [1] [0]

/-- Build a 16-byte `PaddedString` field: the UTF-8 bytes padded with NUL
to 16, failing when they exceed 16 or the value is not a `str`. -/
def paddedStringBuild (v : PyVal) : Option (List Nat) :=
  match v with
  | .bytes bs => if bs.length ≤ 16 then some (bs ++ List.replicate (16 - bs.length) 0) else none
  | .label s =>
    let bs := strToBytes s
    if bs.length ≤ 16 then some (bs ++ List.replicate (16 - bs.length) 0) else none
  | _ => none

/-- A reserved `Padding` region built as the pattern byte `0xFF` repeated. -/
def pad (n : Nat) : List Nat := List.replicate n 0xFF

/-- Bytes `0x00`–`0x0F` of `EEPROM_LAYOUT.build` (revisions through the
`programming_by_tx` flag). -/
def eepromBuildHead (e : EepromConfig) : Option (List Nat) := do
  let b0 ← byteBuild e.main_revision
  let b1 ← byteBuild e.sub_revision
  let b2 ← byteBuild e.layout_revision
  let sp ← enumByteBuild STARTUP_POWER_ENUM e.startup_power
  let md ← enumByteBuild MOTOR_DIRECTION_ENUM e.motor_direction
  let mo ← enumU16Build MODE16_ENUM e.mode
  some ([b0, b1, b2] ++ pad 6 ++ [sp] ++ pad 1 ++ [md] ++ pad 1 ++ u16be mo ++
        flagBuild e.programming_by_tx)

/-- Bytes `0x10`–`0x3F` of `EEPROM_LAYOUT.build` (timing through the LED
flag and the final reserved block). -/
def eepromBuildMid (e : EepromConfig) : Option (List Nat) := do
  let ct ← enumByteBuild COMMUTATION_TIMING_ENUM e.commutation_timing
  let pmin ← byteBuild e.ppm_min_throttle
  let pmax ← byteBuild e.ppm_max_throttle
  let beep ← byteBuild e.beep_strength
  let beacon ← byteBuild e.beacon_strength
  let bd ← enumByteBuild BEACON_DELAY_ENUM e.beacon_delay
  let dc ← enumByteBuild DEMAG_COMPENSATION_ENUM e.demag_compensation
  let pcen ← byteBuild e.ppm_center_throttle
  let tp ← enumByteBuild TEMPERATURE_PROTECTION_ENUM e.temperature_protection
  some (pad 5 ++ [ct] ++ pad 3 ++ [pmin, pmax, beep, beacon, bd] ++ pad 1 ++
        [dc] ++ pad 1 ++ [pcen] ++ pad 1 ++ [tp] ++
        flagBuild e.low_rpm_power_protection ++ pad 2 ++
        flagBuild e.brake_on_stop ++ flagBuild e.led_control ++ pad 23)

/-- Bytes `0x40`–`0x6F` of `EEPROM_LAYOUT.build` (the three text fields). -/
def eepromBuildText (e : EepromConfig) : Option (List Nat) := do
  let lay ← paddedStringBuild e.layout
  let mcu ← paddedStringBuild e.mcu
  let nam ← paddedStringBuild e.name
  some (lay ++ mcu ++ nam)

/-- `EEPROM_LAYOUT.build`: serialize the fields at their fixed offsets
with every `Padding` region written as `0xFF` bytes (split in three parts
only to keep elaboration tractable). -/
def eepromBuild (e : EepromConfig) : Option (List Nat) := do
  let h ← eepromBuildHead e
  let m ← eepromBuildMid e
  let t ← eepromBuildText e
  some (h ++ m ++ t)

/-! ## Field groups and orchestrator (`BlHeliSilabs`)

The transport exchanges (`init_flash`, `read_memory`, `erase_page`,
`write_memory`, `reset_esc`) go over a serial link that is external to
this repository; the orchestrator operations are modelled against an
oracle that supplies each ESC instance's 112-byte memory image and
acknowledges every command, which is the situation the claims describe
(simulated instances).  Warnings emitted through `log` are collected in
an output list. -/

/-- `BlHeliSilabs.DEVICE_INFO_FIELDS`. -/
def DEVICE_INFO_FIELDS : List String :=
  ["main_revision", "sub_revision", "mode", "layout", "mcu", "name"]

/-- `BlHeliSilabs.COMMON_CONFIG_FIELDS`. -/
def COMMON_CONFIG_FIELDS : List String :=
  ["programming_by_tx", "commutation_timing", "beep_strength", "beacon_strength",
   "beacon_delay", "demag_compensation", "temperature_protection",
   "low_rpm_power_protection", "brake_on_stop", "led_control", "startup_power"]

/-- `BlHeliSilabs.ESC_CONFIG_FIELDS`. -/
def ESC_CONFIG_FIELDS : List String :=
  ["motor_direction", "ppm_min_throttle", "ppm_max_throttle", "ppm_center_throttle"]

/-- The `device_info` projection (`{field: str(eeprom[field]).strip()}`;
the `str` conversion and whitespace strip are presentation, the values
are carried as they stand). -/
structure DeviceInfo where
  main_revision : PyVal
  sub_revision : PyVal
  mode : PyVal
  layout : PyVal
  mcu : PyVal
  name : PyVal
deriving DecidableEq, Repr

/-- The `common_config` projection (`{field: eeprom[field]}` over
`COMMON_CONFIG_FIELDS`). -/
structure CommonConfig where
  programming_by_tx : PyVal
  commutation_timing : PyVal
  beep_strength : PyVal
  beacon_strength : PyVal
  beacon_delay : PyVal
  demag_compensation : PyVal
  temperature_protection : PyVal
  low_rpm_power_protection : PyVal
  brake_on_stop : PyVal
  led_control : PyVal
  startup_power : PyVal
deriving DecidableEq, Repr

/-- The `esc_config` projection (`{field: eeprom[field]}` over
`ESC_CONFIG_FIELDS`). -/
structure EscConfig where
  motor_direction : PyVal
  ppm_min_throttle : PyVal
  ppm_max_throttle : PyVal
  ppm_center_throttle : PyVal
deriving DecidableEq, Repr

def deviceInfoOf (e : EepromConfig) : DeviceInfo :=
  ⟨e.main_revision, e.sub_revision, e.mode, e.layout, e.mcu, e.name⟩

def commonConfigOf (e : EepromConfig) : CommonConfig :=
  ⟨e.programming_by_tx, e.commutation_timing, e.beep_strength, e.beacon_strength,
   e.beacon_delay, e.demag_compensation, e.temperature_protection,
   e.low_rpm_power_protection, e.brake_on_stop, e.led_control, e.startup_power⟩

def escConfigOf (e : EepromConfig) : EscConfig :=
  ⟨e.motor_direction, e.ppm_min_throttle, e.ppm_max_throttle, e.ppm_center_throttle⟩

/-- `eeprom[key] = value` for the recognized configuration field names
(the only keys `write_config` ever assigns). -/
def setField (e : EepromConfig) (key : String) (v : PyVal) : EepromConfig :=
  if key = "programming_by_tx" then { e with programming_by_tx := v }
  else if key = "commutation_timing" then { e with commutation_timing := v }
  else if key = "beep_strength" then { e with beep_strength := v }
  else if key = "beacon_strength" then { e with beacon_strength := v }
  else if key = "beacon_delay" then { e with beacon_delay := v }
  else if key = "demag_compensation" then { e with demag_compensation := v }
  else if key = "temperature_protection" then { e with temperature_protection := v }
  else if key = "low_rpm_power_protection" then { e with low_rpm_power_protection := v }
  else if key = "brake_on_stop" then { e with brake_on_stop := v }
  else if key = "led_control" then { e with led_control := v }
  else if key = "startup_power" then { e with startup_power := v }
  else if key = "motor_direction" then { e with motor_direction := v }
  else if key = "ppm_min_throttle" then { e with ppm_min_throttle := v }
  else if key = "ppm_max_throttle" then { e with ppm_max_throttle := v }
  else if key = "ppm_center_throttle" then { e with ppm_center_throttle := v }
  else e

/-- `BlHeliSilabs.read_config` for one instance whose memory image is
`image`: parse the EEPROM layout (any construct exception propagates as
a failure) and project the three field groups. -/
def read_config (image : List Nat) :
    Except String (DeviceInfo × CommonConfig × EscConfig) :=
  match eepromParse image with
  | none => .error "construct parse error"
  | some e => .ok (deviceInfoOf e, commonConfigOf e, escConfigOf e)

/-- The warning `log`ged by `read_config_all` for a mismatching instance
(`esc` is the zero-based index). -/
def mismatchWarning (esc : Nat) : String :=
  "Warning : Common config mismatch for ESC #" ++ toString (esc + 1)

/-- The loop body of `read_config_all` for the instances after the
first: read each, append its entry, and log a warning when its
`common_config` differs from the first instance's. -/
def read_config_all_go (first : CommonConfig) (esc : Nat) (images : List (List Nat)) :
    Except String (List (DeviceInfo × EscConfig) × List String) :=
  match images with
  | [] => .ok ([], [])
  | img :: rest =>
    match read_config img with
    | .error msg => .error msg
    | .ok (info, cc, ec) =>
      match read_config_all_go first (esc + 1) rest with
      | .error msg => .error msg
      | .ok (entries, warns) =>
        .ok ((info, ec) :: entries,
             (if cc ≠ first then [mismatchWarning esc] else []) ++ warns)

/-- `BlHeliSilabs.read_config_all` over `count = images.length`
instances: read every instance in order, remember the first instance's
`common_config`, and log a non-fatal mismatch warning for every later
instance whose `common_config` differs from it.  With zero instances the
Python function raises (`common_config` is unbound at the `return`). -/
def read_config_all (images : List (List Nat)) :
    Except String (CommonConfig × List (DeviceInfo × EscConfig) × List String) :=
  match images with
  | [] => .error "UnboundLocalError: common_config"
  | img0 :: rest =>
    match read_config img0 with
    | .error msg => .error msg
    | .ok (info0, cc0, ec0) =>
      match read_config_all_go cc0 1 rest with
      | .error msg => .error msg
      | .ok (entries, warns) => .ok (cc0, (info0, ec0) :: entries, warns)

/-- The warning `log`ged by `write_config` for an unrecognized parameter
name. -/
def invalidParamWarning (key : String) : String := "Invalid parameter " ++ key

/-- The parameter-patching loop of `write_config`: a key in
`COMMON_CONFIG_FIELDS` or `ESC_CONFIG_FIELDS` is assigned into the
parsed container, any other key is logged as an invalid parameter and
skipped. -/
def applyParams (e : EepromConfig) (params : List (String × PyVal)) :
    EepromConfig × List String :=
  params.foldl
    (fun acc kv =>
      if kv.1 ∈ COMMON_CONFIG_FIELDS ∨ kv.1 ∈ ESC_CONFIG_FIELDS then
        (setField acc.1 kv.1 kv.2, acc.2)
      else
        (acc.1, acc.2 ++ [invalidParamWarning kv.1]))
    (e, [])

/-- `BlHeliSilabs.write_config` for one instance whose memory image is
`image`: read and parse the EEPROM content, patch the supplied
parameters (warning on unknown names), erase the config page, and write
back the re-encoded image.  Returns the bytes written and the warnings.
(In the source the page erase happens before `EEPROM_LAYOUT.build` is
evaluated, so a build failure leaves the page erased; the erase itself
is acknowledged by the oracle and carries no data here.) -/
def write_config (image : List Nat) (params : List (String × PyVal)) :
    Except String (List Nat × List String) :=
  match eepromParse image with
  | none => .error "construct parse error"
  | some e =>
    let (patched, warns) := applyParams e params
    match eepromBuild patched with
    | none => .error "construct build error"
    | some out => .ok (out, warns)

/-! ## `probe_esc` (`blheli_silabs.py`, lines 69–79)

`probe_esc` calls `self.reset_esc()` with no argument, while
`BLHeli4WayInterface.reset_esc(self, esc)` requires one; Python resolves
the method and raises `TypeError` at the call.  The call discipline is
modelled explicitly: a Python call site supplies a list of positional
arguments, and calling a one-parameter method with anything but exactly
one argument is a `TypeError`. -/

/-- The outcome of `init_flash(esc)`: the interface type string it
returns, or a propagated failure. -/
inductive PyOutcome where
  | ok (interface_type : String)
  | exn (msg : String)
deriving DecidableEq, Repr

/-- Call a one-parameter Python method with an explicit positional
argument list: any arity other than one raises `TypeError`. -/
def pyCallOneArg (f : Nat → Except String Unit) (args : List Nat) :
    Except String Unit :=
  match args with
  | [a] => f a
  | _ => .error "TypeError: reset_esc() missing 1 required positional argument: 'esc'"

/-- `BlHeliSilabs.probe_esc`: assert the instance index, run
`init_flash(esc)`, call `self.reset_esc()` — with an empty argument
list, exactly as written in the source — and check the interface type.
`resetBehavior` is the oracle for what `reset_esc` would do if it were
reached with a valid argument. -/
def probe_esc (count esc : Nat) (initFlashOutcome : PyOutcome)
    (resetBehavior : Nat → Except String Unit) : Except String Unit :=
  if esc < count then
    match initFlashOutcome with
    | .exn msg => .error msg
    | .ok interface_type =>
      match pyCallOneArg resetBehavior [] with
      | .error msg => .error msg
      | .ok _ =>
        if interface_type ≠ "silabs" then
          .error ("Invalid ESC type " ++ interface_type)
        else .ok ()
  else .error "AssertionError"

/-! ## Concrete test images and specification helpers -/

/-- An all-zero 112-byte EEPROM image (every enumerated field byte is
outside its mapping except `temperature_protection`, whose enum maps 0;
all flags are false; the text regions strip to empty strings). -/
def zeros112 : List Nat := List.replicate 112 0

/-- `zeros112` with the `programming_by_tx` flag byte (offset 0x0F) set
to 2: a successfully decoding image whose flag byte is not canonical. -/
def imgFlagTwo : List Nat := zeros112.take 15 ++ [2] ++ zeros112.drop 16

/-- `zeros112` with the `beep_strength` byte (offset 0x1B) set to 5: an
image whose common configuration differs from `zeros112` in exactly one
field. -/
def imgBeepFive : List Nat := zeros112.take 27 ++ [5] ++ zeros112.drop 28

/-- The decoded form of `zeros112` (every enum byte outside its mapping
passes through as the raw integer 0, except `temperature_protection`
which maps 0 to `disabled`; flags false; text fields empty). -/
def eepromZero : EepromConfig :=
  ⟨.int 0, .int 0, .int 0, .int 0, .int 0, .int 0, .bool false, .int 0,
   .int 0, .int 0, .int 0, .int 0, .int 0, .int 0, .int 0, .label "disabled",
   .bool false, .bool false, .bool false, .bytes [], .bytes [], .bytes []⟩

/-- The `common_config` projection of `eepromZero`. -/
def commonZero : CommonConfig :=
  ⟨.bool false, .int 0, .int 0, .int 0, .int 0, .int 0, .label "disabled",
   .bool false, .bool false, .bool false, .int 0⟩

/-- The warnings `read_config_all` logs for the instances after the
first, given the first instance's `common_config` and the decoded
configurations of the remaining instances in order (`esc` is the index
of the first element of `es`). -/
def collectWarns (first : CommonConfig) (esc : Nat) : List EepromConfig → List String
  | [] => []
  | e :: rest =>
    (if commonConfigOf e ≠ first then [mismatchWarning esc] else []) ++
      collectWarns first (esc + 1) rest

end PyBlheli

namespace PyBlheli

/-! # Helper lemmas -/

theorem crc16Shift_lt (c : Nat) : crc16Shift c < 65536 := by
  unfold crc16Shift
  split <;> exact Nat.lt_succ_of_le (Nat.and_le_right)

theorem crc16Byte_lt (c b : Nat) : crc16Byte c b < 65536 := by
  unfold crc16Byte
  rw [Function.iterate_succ_apply']
  exact crc16Shift_lt _

theorem crc16_foldl_lt (l : List Nat) (c : Nat) (hc : c < 65536) :
    l.foldl crc16Byte c < 65536 := by
  induction l generalizing c with
  | nil => simpa using hc
  | cons b t ih => exact ih _ (crc16Byte_lt c b)

theorem CRC16_XMODEM_lt (l : List Nat) : CRC16_XMODEM l < 65536 :=
  crc16_foldl_lt l 0 (by norm_num)

theorem u16be_components (v : Nat) : v / 256 % 256 < 256 ∧ v % 256 < 256 :=
  ⟨Nat.mod_lt _ (by norm_num), Nat.mod_lt _ (by norm_num)⟩

theorem u16be_roundtrip (v : Nat) (h : v < 65536) :
    v / 256 % 256 * 256 + v % 256 = v := by omega

theorem getD_lt_of_forall_lt {l : List Nat} (h : ∀ b ∈ l, b < 256) {k : Nat}
    (hk : k < l.length) : l.getD k 0 < 256 := by
  rw [List.getD_eq_getElem l 0 hk]
  exact h _ (List.getElem_mem hk)

theorem drop_take_succ (l : List Nat) (k n : Nat) (h : k < l.length) :
    (l.drop k).take (n + 1) = l.getD k 0 :: (l.drop (k + 1)).take n := by
  rw [List.getD_eq_getElem l 0 h, List.drop_eq_getElem_cons h, List.take_succ_cons]

theorem rstrip0_length_eq (bs : List Nat) :
    (rstrip0 bs).length = (bs.reverse.dropWhile (· == 0)).length := by
  unfold rstrip0
  rw [List.length_reverse]

theorem rstrip0_split_length (bs : List Nat) :
    (bs.reverse.takeWhile (· == 0)).length + (rstrip0 bs).length = bs.length := by
  have h := congrArg List.length
    (List.takeWhile_append_dropWhile (p := fun x => x == 0) (l := bs.reverse))
  simp only [List.length_append, List.length_reverse] at h
  rw [rstrip0_length_eq]
  omega

theorem rstrip0_length_le (bs : List Nat) : (rstrip0 bs).length ≤ bs.length := by
  have h := rstrip0_split_length bs
  omega

theorem rstrip0_append_replicate (bs : List Nat) :
    rstrip0 bs ++ List.replicate (bs.length - (rstrip0 bs).length) 0 = bs := by
  have htwrev : (bs.reverse.takeWhile (· == 0)).reverse
      = List.replicate (bs.reverse.takeWhile (· == 0)).reverse.length 0 := by
    apply List.eq_replicate_of_mem
    intro b hb
    have hmem := List.mem_takeWhile_imp (List.mem_reverse.mp hb)
    simpa using hmem
  have hrev : bs = rstrip0 bs ++ (bs.reverse.takeWhile (· == 0)).reverse := by
    have hsplit : bs.reverse.takeWhile (· == 0) ++ bs.reverse.dropWhile (· == 0)
        = bs.reverse := List.takeWhile_append_dropWhile (p := fun x => x == 0) (l := bs.reverse)
    calc bs = bs.reverse.reverse := (List.reverse_reverse bs).symm
      _ = (bs.reverse.takeWhile (· == 0) ++ bs.reverse.dropWhile (· == 0)).reverse := by
          rw [hsplit]
      _ = rstrip0 bs ++ (bs.reverse.takeWhile (· == 0)).reverse := by
          rw [List.reverse_append]
          rfl
  have hcount : bs.length - (rstrip0 bs).length
      = (bs.reverse.takeWhile (· == 0)).reverse.length := by
    have h := rstrip0_split_length bs
    rw [List.length_reverse]
    omega
  rw [hcount, ← htwrev, ← hrev]

theorem RESPONSE_parse_success (input : List Nat)
    (h0 : input.getD 0 0 = 0x2e) (hn : 8 + input.getD 4 0 ≤ input.length) :
    RESPONSE_parse input = some
      ⟨RESPONSE_START_BYTE, enumDecode COMMAND_ENUM (input.getD 1 0),
       input.getD 2 0 * 256 + input.getD 3 0,
       (input.drop 5).take (input.getD 4 0),
       some (enumDecode ACK_ENUM (input.getD (5 + input.getD 4 0) 0)),
       input.getD (6 + input.getD 4 0) 0 * 256 + input.getD (7 + input.getD 4 0) 0⟩ := by
  have c1 : 0 < input.length := by omega
  have c2 : 1 < input.length := by omega
  have c3 : 2 + 2 ≤ input.length := by omega
  have c4 : 4 < input.length := by omega
  have c5 : 5 + input.getD 4 0 ≤ input.length := by omega
  have c6 : 5 + input.getD 4 0 < input.length := by omega
  have c7 : 5 + input.getD 4 0 + 1 + 2 ≤ input.length := by omega
  have r1 : 5 + input.getD 4 0 + 1 = 6 + input.getD 4 0 := by omega
  have r2 : 6 + input.getD 4 0 + 1 = 7 + input.getD 4 0 := by omega
  have c8 : 6 + input.getD 4 0 + 2 ≤ input.length := by omega
  simp only [RESPONSE_parse, readByte, readU16be, readChunk, Nat.reduceAdd,
    Option.bind_eq_bind, c1, c2, c3, c4, c5, c6, c7, c8, if_true, ite_true,
    Option.some_bind, h0, ne_eq, not_true_eq_false, if_false, ite_false, r1, r2,
    RESPONSE_START_BYTE]

theorem RESPONSE_parse_marker_fail (input : List Nat)
    (h : input.getD 0 0 ≠ 0x2e) : RESPONSE_parse input = none := by
  by_cases c1 : 0 < input.length
  · simp only [RESPONSE_parse, readByte, Option.bind_eq_bind, c1, if_true,
      ite_true, Option.some_bind, RESPONSE_START_BYTE]
    rw [if_pos h]
  · simp only [RESPONSE_parse, readByte, Option.bind_eq_bind, c1, if_false,
      ite_false, Option.none_bind]

theorem RESPONSE_parse_short_fail (input : List Nat)
    (h : input.length < 8 + input.getD 4 0) : RESPONSE_parse input = none := by
  by_cases c1 : 0 < input.length
  case neg =>
    simp only [RESPONSE_parse, readByte, Option.bind_eq_bind, c1, if_false,
      ite_false, Option.none_bind]
  by_cases hsb : input.getD 0 0 = 0x2e
  case neg => exact RESPONSE_parse_marker_fail input hsb
  simp only [RESPONSE_parse, readByte, readU16be, readChunk, Nat.reduceAdd,
    Option.bind_eq_bind, c1, if_true, ite_true, Option.some_bind, hsb, ne_eq,
    not_true_eq_false, if_false, ite_false, RESPONSE_START_BYTE]
  by_cases c2 : 1 < input.length
  case neg =>
    simp only [c2, if_false, ite_false, Option.none_bind]
  simp only [c2, if_true, ite_true, Option.some_bind]
  by_cases c3 : 2 + 2 ≤ input.length
  case neg =>
    simp only [c3, if_false, ite_false, Option.none_bind]
  simp only [c3, if_true, ite_true, Option.some_bind, Nat.reduceAdd]
  by_cases c4 : 4 < input.length
  case neg =>
    simp only [c4, if_false, ite_false, Option.none_bind]
  simp only [c4, if_true, ite_true, Option.some_bind]
  by_cases c5 : 5 + input.getD 4 0 ≤ input.length
  case neg =>
    simp only [c5, if_false, ite_false, Option.none_bind]
  simp only [c5, if_true, ite_true, Option.some_bind]
  by_cases c6 : 5 + input.getD 4 0 < input.length
  case neg =>
    simp only [c6, if_false, ite_false, Option.none_bind]
  simp only [c6, if_true, ite_true, Option.some_bind]
  have c7 : ¬(5 + input.getD 4 0 + 1 + 2 ≤ input.length) := by omega
  simp only [c7, if_false, ite_false, Option.none_bind]

theorem REQUEST_parse_success (input : List Nat)
    (h0 : input.getD 0 0 = 0x2f) (hn : 7 + input.getD 4 0 ≤ input.length) :
    REQUEST_parse input = some
      ⟨REQUEST_START_BYTE, enumDecode COMMAND_ENUM (input.getD 1 0),
       input.getD 2 0 * 256 + input.getD 3 0,
       (input.drop 5).take (input.getD 4 0),
       none,
       input.getD (5 + input.getD 4 0) 0 * 256 + input.getD (6 + input.getD 4 0) 0⟩ := by
  have c1 : 0 < input.length := by omega
  have c2 : 1 < input.length := by omega
  have c3 : 2 + 2 ≤ input.length := by omega
  have c4 : 4 < input.length := by omega
  have c5 : 5 + input.getD 4 0 ≤ input.length := by omega
  have c7 : 5 + input.getD 4 0 + 2 ≤ input.length := by omega
  have r1 : 5 + input.getD 4 0 + 1 = 6 + input.getD 4 0 := by omega
  simp only [REQUEST_parse, readByte, readU16be, readChunk, Nat.reduceAdd,
    Option.bind_eq_bind, c1, c2, c3, c4, c5, c7, if_true, ite_true,
    Option.some_bind, h0, ne_eq, not_true_eq_false, if_false, ite_false, r1,
    REQUEST_START_BYTE]

/-! # Claim theorems -/

theorem cmd_table_lookup :
    ∀ i : Fin COMMAND_ENUM.length,
      enumLookupLabel COMMAND_ENUM (COMMAND_ENUM.get i).1 = some (COMMAND_ENUM.get i).2 ∧
      enumDecode COMMAND_ENUM (COMMAND_ENUM.get i).2 = .label (COMMAND_ENUM.get i).1 := by
  decide

/-- **C1 counterexample.** The claim says `parse(build(command, address,
payload))` returns a frame matching the inputs.  In fact `parse` always
fails on built frames: `build` produces request frames (marker `0x2F`,
no ack byte) while `parse` parses the response layout, whose `Const`
start-byte check rejects `0x2F`.  Concretely for
`build('device_erase_all')`. -/
theorem parse_of_built_frame_fails :
    build "device_erase_all" 0 [0] = .ok [0x2f, 0x38, 0x00, 0x00, 0x01, 0x00, 0xcd, 0xf9] ∧
    parse [0x2f, 0x38, 0x00, 0x00, 0x01, 0x00, 0xcd, 0xf9] = .error "Decoding error" :=
  ⟨rfl, rfl⟩

theorem REQUEST_parse_of_built (op : Nat) (address : Nat) (payload : List Nat)
    (c : Nat) (ha : address < 65536) (hc : c < 65536) :
    REQUEST_parse (0x2f :: op :: (address / 256 % 256) :: (address % 256) ::
        payload.length :: (payload ++ [c / 256 % 256, c % 256]))
      = some ⟨REQUEST_START_BYTE, enumDecode COMMAND_ENUM op, address, payload,
              none, c⟩ := by
  have hg4 : (0x2f :: op :: (address / 256 % 256) :: (address % 256) ::
      payload.length :: (payload ++ [c / 256 % 256, c % 256])).getD 4 0
      = payload.length := rfl
  have hlen : (0x2f :: op :: (address / 256 % 256) :: (address % 256) ::
      payload.length :: (payload ++ [c / 256 % 256, c % 256])).length
      = payload.length + 7 := by simp
  have h := REQUEST_parse_success (0x2f :: op :: (address / 256 % 256) ::
    (address % 256) :: payload.length :: (payload ++ [c / 256 % 256, c % 256]))
    rfl (by rw [hg4, hlen]; omega)
  rw [h, hg4]
  have happ : (0x2f :: op :: (address / 256 % 256) :: (address % 256) ::
      payload.length :: (payload ++ [c / 256 % 256, c % 256]))
      = [0x2f, op, address / 256 % 256, address % 256, payload.length] ++
        (payload ++ [c / 256 % 256, c % 256]) := rfl
  have hcrc1 : (0x2f :: op :: (address / 256 % 256) :: (address % 256) ::
      payload.length :: (payload ++ [c / 256 % 256, c % 256])).getD
        (5 + payload.length) 0 = c / 256 % 256 := by
    rw [happ, List.getD_append_right _ _ _ _
      (by simp only [List.length_cons, List.length_nil, Nat.reduceAdd]; omega)]
    have hi : 5 + payload.length -
        ([0x2f, op, address / 256 % 256, address % 256, payload.length] : List Nat).length
        = payload.length := by
      simp only [List.length_cons, List.length_nil, Nat.reduceAdd]
      omega
    rw [hi, List.getD_append_right _ _ _ _ (Nat.le_refl _), Nat.sub_self]
    rfl
  have hcrc2 : (0x2f :: op :: (address / 256 % 256) :: (address % 256) ::
      payload.length :: (payload ++ [c / 256 % 256, c % 256])).getD
        (6 + payload.length) 0 = c % 256 := by
    rw [happ, List.getD_append_right _ _ _ _
      (by simp only [List.length_cons, List.length_nil, Nat.reduceAdd]; omega)]
    have hi : 6 + payload.length -
        ([0x2f, op, address / 256 % 256, address % 256, payload.length] : List Nat).length
        = payload.length + 1 := by
      simp only [List.length_cons, List.length_nil, Nat.reduceAdd]
      omega
    rw [hi, List.getD_append_right _ _ _ _ (Nat.le_add_right _ _),
      Nat.add_sub_cancel_left]
    rfl
  rw [hcrc1, hcrc2, u16be_roundtrip c hc]
  have hdropTake : ((0x2f :: op :: (address / 256 % 256) :: (address % 256) ::
      payload.length :: (payload ++ [c / 256 % 256, c % 256])).drop 5).take
        payload.length = payload := by
    show (payload ++ [c / 256 % 256, c % 256]).take payload.length = payload
    exact List.take_left payload _
  rw [hdropTake]
  have haddr : (0x2f :: op :: (address / 256 % 256) :: (address % 256) ::
      payload.length :: (payload ++ [c / 256 % 256, c % 256])).getD 2 0 * 256 +
      (0x2f :: op :: (address / 256 % 256) :: (address % 256) ::
      payload.length :: (payload ++ [c / 256 % 256, c % 256])).getD 3 0 = address := by
    show address / 256 % 256 * 256 + address % 256 = address
    exact u16be_roundtrip address ha
  rw [haddr]
  rfl

/-- **C1 (amended).** For every known command name, address below 2^16
and payload of at most 255 bytes, the bytes produced by `build` parse
back — with the source REQUEST structure, which carries the request
start marker and no ack field — to a frame whose command, address and
payload exactly equal the inputs.  The `parse` function of the source
parses only the response layout and raises a Decoding error on every
built frame (see the counterexample). -/
theorem build_request_roundtrip (i : Fin COMMAND_ENUM.length) (address : Nat)
    (payload : List Nat) (ha : address < 65536) (hl : payload.length ≤ 255)
    (hp : ∀ b ∈ payload, b < 256) :
    ∃ bytes f, build (COMMAND_ENUM.get i).1 address payload = .ok bytes ∧
      REQUEST_parse bytes = some f ∧
      f.start_byte = REQUEST_START_BYTE ∧
      f.command = .label (COMMAND_ENUM.get i).1 ∧
      f.address = address ∧ f.payload = payload := by
  obtain ⟨hlk, hdec⟩ := cmd_table_lookup i
  have hall : payload.all (· < 256) = true := by
    rw [List.all_eq_true]
    intro x hx
    simpa using hp x hx
  have hbuild : ∀ c : Nat, c < 65536 →
      REQUEST_build (COMMAND_ENUM.get i).1 address payload c
        = some ([REQUEST_START_BYTE, (COMMAND_ENUM.get i).2] ++ u16be address ++
                [payload.length] ++ payload ++ u16be c) := by
    intro c hc
    unfold REQUEST_build
    rw [hlk]
    simp only [Option.bind_eq_bind, Option.some_bind]
    rw [if_pos ⟨ha, by omega, hall, hc⟩]
  have hcons : ∀ c : Nat,
      [REQUEST_START_BYTE, (COMMAND_ENUM.get i).2] ++ u16be address ++
        [payload.length] ++ payload ++ u16be c
      = 0x2f :: (COMMAND_ENUM.get i).2 :: (address / 256 % 256) :: (address % 256) ::
        payload.length :: (payload ++ [c / 256 % 256, c % 256]) := by
    intro c
    simp [u16be, REQUEST_START_BYTE]
  have h0 := hbuild 0 (by norm_num)
  refine ⟨_, _, ?_,
    REQUEST_parse_of_built (COMMAND_ENUM.get i).2 address payload
      (CRC16_XMODEM (([REQUEST_START_BYTE, (COMMAND_ENUM.get i).2] ++
        u16be address ++ [payload.length] ++ payload ++ u16be 0).take
        (([REQUEST_START_BYTE, (COMMAND_ENUM.get i).2] ++ u16be address ++
          [payload.length] ++ payload ++ u16be 0).length - 2)))
      ha (CRC16_XMODEM_lt _),
    rfl, hdec, rfl, rfl⟩
  unfold build
  rw [h0]
  dsimp only
  rw [hbuild _ (CRC16_XMODEM_lt _), hcons]

/-- **C1 witness.** The amended round-trip at a concrete input:
`device_read` (table index 9), address `0xaabb`, payload `[15]`. -/
theorem build_request_roundtrip_witness :
    ∃ bytes f, build (COMMAND_ENUM.get ⟨9, by decide⟩).1 0xaabb [15] = .ok bytes ∧
      REQUEST_parse bytes = some f ∧
      f.start_byte = REQUEST_START_BYTE ∧
      f.command = .label (COMMAND_ENUM.get ⟨9, by decide⟩).1 ∧
      f.address = 0xaabb ∧ f.payload = [15] :=
  build_request_roundtrip ⟨9, by decide⟩ 0xaabb [15] (by decide) (by decide)
    (by decide)

/-- **C4.** `build('device_erase_all')` (with the default address 0 and
default payload `[0]`) returns exactly the bytes `2f3800000100cdf9`, and
`build('device_read', address=0xaabb, payload=[15])` returns exactly the
bytes `2f3aaabb010ff446`. -/
theorem build_concrete_vectors :
    build "device_erase_all" 0 [0] = .ok [0x2f, 0x38, 0x00, 0x00, 0x01, 0x00, 0xcd, 0xf9] ∧
    build "device_read" 0xaabb [15] = .ok [0x2f, 0x3a, 0xaa, 0xbb, 0x01, 0x0f, 0xf4, 0x46] :=
  ⟨rfl, rfl⟩

/-- **C3 counterexample.** The claim says `parse` raises a Decoding
error when the frame carries an unknown ack code.  It does not: construct
`Enum` decodes an unmapped value to the raw integer without failing, so
the frame `2E340000010005 12C6` — ack byte `0x05`, which is not in the
ack enum, with a valid CRC — parses successfully. -/
theorem parse_unknown_ack_succeeds :
    parse [0x2e, 0x34, 0x00, 0x00, 0x01, 0x00, 0x05, 0x12, 0xc6] =
      .ok ⟨0x2e, .label "interface_exit", 0, [0], some (.int 5), 0x12c6⟩ ∧
    enumLookupValue ACK_ENUM 0x05 = none :=
  ⟨rfl, rfl⟩

/-- **C3 (amended).** `parse` succeeds exactly when the input starts
with the response marker `0x2E`, is long enough for the fixed layout
(`8 + payload-count` bytes, the count being the byte at offset 4), and
the CRC field parsed at its layout position equals CRC16/XMODEM of all
input bytes but the last two; unknown opcode and ack bytes decode to raw
integers rather than failing, and trailing bytes beyond the layout are
ignored by the structural parse.  The concrete vectors behave as the
claim states: `2E3400000100004263` parses to `interface_exit` and
`2E3400000100004264` (one CRC bit flipped) raises the Decoding error. -/
theorem parse_error_characterization (frame : List Nat) :
    ((∃ f, parse frame = .ok f) ↔
      (frame.getD 0 0 = 0x2e ∧ 8 + frame.getD 4 0 ≤ frame.length ∧
       frame.getD (6 + frame.getD 4 0) 0 * 256 + frame.getD (7 + frame.getD 4 0) 0
         = CRC16_XMODEM (frame.take (frame.length - 2)))) ∧
    parse [0x2e, 0x34, 0x00, 0x00, 0x01, 0x00, 0x00, 0x42, 0x63]
      = .ok ⟨0x2e, .label "interface_exit", 0, [0], some (.label "ok"), 0x4263⟩ ∧
    parse [0x2e, 0x34, 0x00, 0x00, 0x01, 0x00, 0x00, 0x42, 0x64]
      = .error "Invalid crc" := by
  refine ⟨⟨?_, ?_⟩, rfl, rfl⟩
  · rintro ⟨f, hf⟩
    by_cases h0 : frame.getD 0 0 = 0x2e
    case neg =>
      exfalso
      unfold parse at hf
      by_cases hz : frame.length = 0
      · rw [if_pos hz] at hf
        simp at hf
      · rw [if_neg hz, RESPONSE_parse_marker_fail frame h0] at hf
        simp at hf
    by_cases hn : 8 + frame.getD 4 0 ≤ frame.length
    case neg =>
      exfalso
      unfold parse at hf
      by_cases hz : frame.length = 0
      · rw [if_pos hz] at hf
        simp at hf
      · rw [if_neg hz, RESPONSE_parse_short_fail frame (by omega)] at hf
        simp at hf
    refine ⟨h0, hn, ?_⟩
    unfold parse at hf
    rw [if_neg (by omega), RESPONSE_parse_success frame h0 hn] at hf
    dsimp only at hf
    rw [if_neg (by simp)] at hf
    by_cases hcrc : frame.getD (6 + frame.getD 4 0) 0 * 256 +
        frame.getD (7 + frame.getD 4 0) 0
        = CRC16_XMODEM (frame.take (frame.length - 2))
    · exact hcrc
    · exfalso
      rw [if_pos hcrc] at hf
      simp at hf
  · rintro ⟨h0, hn, hcrc⟩
    refine ⟨⟨RESPONSE_START_BYTE, enumDecode COMMAND_ENUM (frame.getD 1 0),
      frame.getD 2 0 * 256 + frame.getD 3 0, (frame.drop 5).take (frame.getD 4 0),
      some (enumDecode ACK_ENUM (frame.getD (5 + frame.getD 4 0) 0)),
      frame.getD (6 + frame.getD 4 0) 0 * 256 + frame.getD (7 + frame.getD 4 0) 0⟩, ?_⟩
    unfold parse
    rw [if_neg (by omega), RESPONSE_parse_success frame h0 hn]
    dsimp only
    rw [if_neg (by simp), if_neg (not_not_intro hcrc)]

/-- **C3 witness.** The success characterization applied at the concrete
frame `2E3400000100004263`: its structural conditions hold, so `parse`
returns a frame. -/
theorem parse_error_characterization_witness :
    ∃ f, parse [0x2e, 0x34, 0x00, 0x00, 0x01, 0x00, 0x00, 0x42, 0x63] = .ok f :=
  (parse_error_characterization
    [0x2e, 0x34, 0x00, 0x00, 0x01, 0x00, 0x00, 0x42, 0x63]).1.mpr
    ⟨rfl, by decide, by decide⟩

theorem parseInitFlash_spec (bs : List Nat) :
    (bs.length < 4 → parseInitFlash bs = none) ∧
    (4 ≤ bs.length → parseInitFlash bs = some (.initFlash (bs.getD 0 0)
      (bs.getD 1 0) (bs.getD 2 0) (enumDecode MODE_ENUM (bs.getD 3 0)))) := by
  constructor
  · intro hlen
    unfold parseInitFlash readByte
    by_cases c1 : 0 < bs.length
    case neg => simp only [Option.bind_eq_bind, c1, if_false, ite_false, Option.none_bind]
    simp only [Option.bind_eq_bind, c1, if_true, ite_true, Option.some_bind, Nat.reduceAdd]
    by_cases c2 : 1 < bs.length
    case neg => simp only [c2, if_false, ite_false, Option.none_bind]
    simp only [c2, if_true, ite_true, Option.some_bind]
    by_cases c3 : 2 < bs.length
    case neg => simp only [c3, if_false, ite_false, Option.none_bind]
    simp only [c3, if_true, ite_true, Option.some_bind]
    have c4 : ¬(3 < bs.length) := by omega
    simp only [c4, if_false, ite_false, Option.none_bind]
  · intro hlen
    have c1 : 0 < bs.length := by omega
    have c2 : 1 < bs.length := by omega
    have c3 : 2 < bs.length := by omega
    have c4 : 3 < bs.length := by omega
    simp only [parseInitFlash, readByte, Option.bind_eq_bind, Nat.reduceAdd,
      c1, c2, c3, c4, if_true, ite_true, Option.some_bind]

/-- **C6 counterexample.** The claim says `parse_payload` raises a
Decoding error when the registered shape cannot consume the payload
bytes exactly.  construct ignores surplus bytes: this response frame
carries a 5-byte `device_init_flash` payload, the shape consumes only 4,
and `parse_payload` succeeds. -/
theorem parse_payload_surplus_bytes_ok :
    parse [0x2e, 0x37, 0x00, 0x00, 0x05, 0xf3, 0x30, 0xaa, 0x01, 0x00, 0x00, 0xd7, 0x99]
      = .ok ⟨0x2e, .label "device_init_flash", 0, [0xf3, 0x30, 0xaa, 0x01, 0x00],
             some (.label "ok"), 0xd799⟩ ∧
    parse_payload ⟨0x2e, .label "device_init_flash", 0, [0xf3, 0x30, 0xaa, 0x01, 0x00],
        some (.label "ok"), 0xd799⟩
      = .ok (.initFlash 0xf3 0x30 0xaa (.label "SiLabsBLB")) :=
  ⟨rfl, rfl⟩

/-- **C6 (amended).** For every response-direction frame (the direction
of every frame `parse` returns), `parse_payload` returns the raw payload
unchanged when the command is not `device_init_flash` — the only entry
of the response payload table, and raw (integer-decoded) commands are
never table keys; for `device_init_flash` it raises a Decoding error
exactly when the payload is shorter than the 4-byte shape, and otherwise
decodes the first four bytes, ignoring any surplus (see the
counterexample).  The claim's concrete vector holds: the parsed frame of
`2E37000004F330AA0100F7F0` decodes to a `device_init_flash`
identification payload with mode `SiLabsBLB`. -/
theorem parse_payload_characterization (f : Frame)
    (hresp : f.start_byte = RESPONSE_START_BYTE) :
    (f.command ≠ .label "device_init_flash" → parse_payload f = .ok (.raw f.payload)) ∧
    (f.command = .label "device_init_flash" →
      (f.payload.length < 4 → parse_payload f = .error "Failed to parse payload") ∧
      (4 ≤ f.payload.length → parse_payload f = .ok (.initFlash (f.payload.getD 0 0)
        (f.payload.getD 1 0) (f.payload.getD 2 0)
        (enumDecode MODE_ENUM (f.payload.getD 3 0))))) ∧
    parse [0x2e, 0x37, 0x00, 0x00, 0x04, 0xf3, 0x30, 0xaa, 0x01, 0x00, 0xf7, 0xf0]
      = .ok ⟨0x2e, .label "device_init_flash", 0, [0xf3, 0x30, 0xaa, 0x01],
             some (.label "ok"), 0xf7f0⟩ ∧
    parse_payload ⟨0x2e, .label "device_init_flash", 0, [0xf3, 0x30, 0xaa, 0x01],
        some (.label "ok"), 0xf7f0⟩
      = .ok (.initFlash 0xf3 0x30 0xaa (.label "SiLabsBLB")) := by
  refine ⟨?_, ?_, rfl, rfl⟩
  · intro hne
    unfold parse_payload
    rw [hresp]
    have hdir : ¬(RESPONSE_START_BYTE = REQUEST_START_BYTE) := by decide
    simp only [hdir, if_false, ite_false]
    match hcmd : f.command with
    | .int n => rfl
    | .bool b => rfl
    | .bytes bs => rfl
    | .label s =>
      have hs : ¬(s = "device_init_flash") := by
        intro hcontra
        exact hne (by rw [hcmd, hcontra])
      unfold RESPONSE_PAYLOAD
      simp only [hs, if_false, ite_false]
  · intro hcmd
    have hpp : parse_payload f =
        match parseInitFlash f.payload with
        | some v => .ok v
        | none => .error "Failed to parse payload" := by
      unfold parse_payload
      rw [hresp, hcmd]
      have hdir : ¬(RESPONSE_START_BYTE = REQUEST_START_BYTE) := by decide
      simp only [hdir, if_false, ite_false]
      rfl
    obtain ⟨hshort, hok⟩ := parseInitFlash_spec f.payload
    constructor
    · intro hlen
      rw [hpp, hshort hlen]
    · intro hlen
      rw [hpp, hok hlen]

/-- **C6 witness.** The characterization applied to the concrete parsed
frame of the claim's vector (4-byte payload, decoded mode `SiLabsBLB`). -/
theorem parse_payload_characterization_witness :
    parse_payload ⟨0x2e, .label "device_init_flash", 0, [0xf3, 0x30, 0xaa, 0x01],
        some (.label "ok"), 0xf7f0⟩
      = .ok (.initFlash 0xf3 0x30 0xaa (enumDecode MODE_ENUM 0x01)) :=
  ((parse_payload_characterization
      ⟨0x2e, .label "device_init_flash", 0, [0xf3, 0x30, 0xaa, 0x01],
       some (.label "ok"), 0xf7f0⟩ rfl).2.1 rfl).2 (by decide)

/-- **C9.** `build` fails with an Encoding error whenever the command is
not a known opcode name, and whenever the payload exceeds 255 bytes (the
1-byte length prefix); on equal inputs it returns identical bytes
(determinism: `build` is a pure function of its arguments). -/
theorem build_error_conditions (command : String) (address : Nat) (payload : List Nat) :
    (enumLookupLabel COMMAND_ENUM command = none →
      build command address payload = .error "Encoding error") ∧
    (255 < payload.length →
      build command address payload = .error "Encoding error") ∧
    build command address payload = build command address payload := by
  refine ⟨fun hcmd => ?_, fun hlen => ?_, rfl⟩
  · have hnone : ∀ c : Nat, REQUEST_build command address payload c = none := by
      intro c
      unfold REQUEST_build
      rw [hcmd]
      rfl
    unfold build
    rw [hnone 0]
  · have hnone : ∀ c : Nat, REQUEST_build command address payload c = none := by
      intro c
      unfold REQUEST_build
      cases h : enumLookupLabel COMMAND_ENUM command with
      | none => rfl
      | some op =>
        have hcond : ¬(address < 65536 ∧ payload.length < 256 ∧
            payload.all (· < 256) = true ∧ c < 65536) := by
          intro hcontra
          omega
        simp only [Option.bind_eq_bind, Option.some_bind, if_neg hcond]
    unfold build
    rw [hnone 0]

/-- **C9 witness.** The error conditions at concrete inputs: an unknown
command name and an oversized payload. -/
theorem build_error_conditions_witness :
    build "bogus" 0 [0] = .error "Encoding error" ∧
    build "device_read" 0 (List.replicate 256 0) = .error "Encoding error" :=
  ⟨(build_error_conditions "bogus" 0 [0]).1 rfl,
   (build_error_conditions "device_read" 0 (List.replicate 256 0)).2.1 (by simp)⟩

theorem collectWarns_all_eq (first : CommonConfig) (k : Nat)
    (es : List EepromConfig) (h : ∀ e ∈ es, commonConfigOf e = first) :
    collectWarns first k es = [] := by
  induction es generalizing k with
  | nil => rfl
  | cons e rest ih =>
    have he := h e (List.mem_cons_self e rest)
    unfold collectWarns
    rw [if_neg (not_not_intro he), List.nil_append]
    exact ih (k + 1) (fun x hx => h x (List.mem_cons_of_mem e hx))

theorem collectWarns_one_diff (first : CommonConfig) (k : Nat)
    (A : List EepromConfig) (d : EepromConfig) (B : List EepromConfig)
    (hA : ∀ e ∈ A, commonConfigOf e = first)
    (hB : ∀ e ∈ B, commonConfigOf e = first)
    (hd : commonConfigOf d ≠ first) :
    collectWarns first k (A ++ d :: B) = [mismatchWarning (k + A.length)] := by
  induction A generalizing k with
  | nil =>
    rw [List.nil_append]
    unfold collectWarns
    rw [if_pos hd, collectWarns_all_eq first (k + 1) B hB]
    simp
  | cons a A ih =>
    have ha := hA a (List.mem_cons_self a A)
    rw [List.cons_append]
    unfold collectWarns
    rw [if_neg (not_not_intro ha), List.nil_append,
      ih (k + 1) (fun x hx => hA x (List.mem_cons_of_mem a hx))]
    have : k + 1 + A.length = k + (a :: A).length := by
      simp only [List.length_cons]
      omega
    rw [this]

theorem collectWarns_all_ne (first : CommonConfig) (k : Nat)
    (es : List EepromConfig) (h : ∀ e ∈ es, commonConfigOf e ≠ first) :
    collectWarns first k es
      = (List.range es.length).map (fun j => mismatchWarning (k + j)) := by
  induction es generalizing k with
  | nil => rfl
  | cons e rest ih =>
    unfold collectWarns
    rw [if_pos (h e (List.mem_cons_self e rest)),
      ih (k + 1) (fun x hx => h x (List.mem_cons_of_mem e hx))]
    simp only [List.length_cons, List.range_succ_eq_map, List.map_cons,
      List.map_map, List.singleton_append, List.cons.injEq]
    constructor
    · rw [Nat.add_zero]
    · apply List.map_congr_left
      intro j hj
      simp only [Function.comp_apply]
      have : k + 1 + j = k + (j + 1) := by omega
      rw [this]

theorem read_config_all_go_spec (first : CommonConfig) (k : Nat)
    (images : List (List Nat)) (es : List EepromConfig)
    (hdec : images.map eepromParse = es.map some) :
    read_config_all_go first k images
      = .ok (es.map (fun e => (deviceInfoOf e, escConfigOf e)),
             collectWarns first k es) := by
  induction images generalizing es k with
  | nil =>
    cases es with
    | nil => rfl
    | cons e r => simp at hdec
  | cons img rest ih =>
    cases es with
    | nil => simp at hdec
    | cons e r =>
      simp only [List.map_cons, List.cons.injEq] at hdec
      obtain ⟨h1, h2⟩ := hdec
      unfold read_config_all_go read_config
      rw [h1]
      dsimp only
      rw [ih (k + 1) r h2]
      dsimp only
      simp only [List.map_cons, collectWarns]

/-- **C7 counterexample.** The claim says that when exactly one instance
differs from the others in exactly one common-config field,
`read_config_all` emits exactly one mismatch warning naming that
instance.  When the differing instance is the first one, the code
compares every later instance against it and warns once per later
instance: with three instances whose first differs from the other two in
the single field `beep_strength`, two warnings are emitted, naming
ESC #2 and ESC #3 — not one warning naming the differing ESC #1. -/
theorem read_config_all_first_differs_counterexample :
    (eepromParse zeros112).map commonConfigOf = some commonZero ∧
    (eepromParse imgBeepFive).map commonConfigOf
      = some { commonZero with beep_strength := .int 5 } ∧
    (read_config_all [imgBeepFive, zeros112, zeros112]).map (fun r => r.2.2)
      = .ok [mismatchWarning 1, mismatchWarning 2] :=
  ⟨rfl, rfl, rfl⟩

/-- **C7 (amended).** Over a rig whose instance images all decode,
`read_config_all` returns normally with one entry per instance and the
warning list determined by comparing each later instance's
`common_config` with the first instance's: no warning when they are all
equal to the first's; exactly one warning naming instance `A.length + 1`
(zero-based, logged as `ESC #(A.length + 2)`) when exactly that one
later instance differs; and when the first instance is the one that
differs from all the others, one warning for every other instance.  A
mismatch never aborts the call. -/
theorem read_config_all_warnings (img0 : List Nat) (imgs : List (List Nat))
    (e0 : EepromConfig) (es : List EepromConfig)
    (h0 : eepromParse img0 = some e0)
    (hdec : imgs.map eepromParse = es.map some) :
    (∃ entries warns, read_config_all (img0 :: imgs)
        = .ok (commonConfigOf e0, entries, warns) ∧
        entries.length = imgs.length + 1 ∧
        warns = collectWarns (commonConfigOf e0) 1 es) ∧
    ((∀ e ∈ es, commonConfigOf e = commonConfigOf e0) →
      collectWarns (commonConfigOf e0) 1 es = []) ∧
    (∀ A d B, es = A ++ d :: B →
      (∀ e ∈ A, commonConfigOf e = commonConfigOf e0) →
      (∀ e ∈ B, commonConfigOf e = commonConfigOf e0) →
      commonConfigOf d ≠ commonConfigOf e0 →
      collectWarns (commonConfigOf e0) 1 es = [mismatchWarning (1 + A.length)]) ∧
    (∀ c, (∀ e ∈ es, commonConfigOf e = c) → commonConfigOf e0 ≠ c →
      collectWarns (commonConfigOf e0) 1 es
        = (List.range es.length).map (fun j => mismatchWarning (1 + j))) := by
  refine ⟨?_, ?_, ?_, ?_⟩
  · have hmain : read_config_all (img0 :: imgs)
        = .ok (commonConfigOf e0,
               (deviceInfoOf e0, escConfigOf e0) ::
                 es.map (fun e => (deviceInfoOf e, escConfigOf e)),
               collectWarns (commonConfigOf e0) 1 es) := by
      unfold read_config_all read_config
      dsimp only
      rw [h0]
      dsimp only
      rw [read_config_all_go_spec (commonConfigOf e0) 1 imgs es hdec]
    have hlen : imgs.length = es.length := by
      have h := congrArg List.length hdec
      simpa using h
    exact ⟨_, _, hmain, by simp [hlen], rfl⟩
  · intro h
    exact collectWarns_all_eq _ 1 es h
  · intro A d B hes hA hB hd
    subst hes
    exact collectWarns_one_diff _ 1 A d B hA hB hd
  · intro c hc hne
    exact collectWarns_all_ne _ 1 es
      (fun e he => by rw [hc e he]; exact fun hcontra => hne hcontra.symm)

/-- **C7 witness.** The amended theorem applied to two identical
simulated instances: the call returns normally with both entries and the
mismatch warnings of the homogeneous rig are none. -/
theorem read_config_all_warnings_witness :
    (∃ entries warns, read_config_all [zeros112, zeros112]
        = .ok (commonConfigOf eepromZero, entries, warns) ∧
        entries.length = 2 ∧
        warns = collectWarns (commonConfigOf eepromZero) 1 [eepromZero]) ∧
    collectWarns (commonConfigOf eepromZero) 1 [eepromZero] = [] :=
  ⟨(read_config_all_warnings zeros112 [zeros112] eepromZero [eepromZero]
      rfl rfl).1,
   (read_config_all_warnings zeros112 [zeros112] eepromZero [eepromZero]
      rfl rfl).2.1 (fun e he => by
        simp only [List.mem_singleton] at he
        rw [he])⟩

theorem enumEncode_enumDecode (T : List (String × Nat))
    (hnodup : (T.map Prod.fst).Nodup) (v : Nat) :
    enumEncode T (enumDecode T v) = some v := by
  unfold enumDecode enumLookupValue
  cases hf : T.find? (fun kv => kv.2 = v) with
  | none => rfl
  | some kv =>
    have hkvmem : kv ∈ T := List.mem_of_find?_eq_some hf
    have hkvval : kv.2 = v := by simpa using List.find?_some hf
    show (T.find? (fun kv2 => kv2.1 = kv.1)).map Prod.snd = some v
    cases hg : T.find? (fun kv2 => kv2.1 = kv.1) with
    | none =>
      exfalso
      have hnone := List.find?_eq_none.mp hg kv hkvmem
      simp at hnone
    | some kv2 =>
      have hkv2mem : kv2 ∈ T := List.mem_of_find?_eq_some hg
      have hkv2lab : kv2.1 = kv.1 := by simpa using List.find?_some hg
      have heq : kv2 = kv :=
        List.inj_on_of_nodup_map hnodup hkv2mem hkvmem hkv2lab
      show some kv2.2 = some v
      rw [heq, hkvval]

theorem enumByteBuild_enumDecode (T : List (String × Nat))
    (hnodup : (T.map Prod.fst).Nodup) (v : Nat) (hv : v < 256) :
    enumByteBuild T (enumDecode T v) = some v := by
  unfold enumByteBuild
  rw [enumEncode_enumDecode T hnodup v]
  simp [hv]

theorem enumU16Build_enumDecode (T : List (String × Nat))
    (hnodup : (T.map Prod.fst).Nodup) (v : Nat) (hv : v < 65536) :
    enumU16Build T (enumDecode T v) = some v := by
  unfold enumU16Build
  rw [enumEncode_enumDecode T hnodup v]
  simp [hv]

theorem eeprom_tables_nodup :
    (STARTUP_POWER_ENUM.map Prod.fst).Nodup ∧
    (MOTOR_DIRECTION_ENUM.map Prod.fst).Nodup ∧
    (MODE16_ENUM.map Prod.fst).Nodup ∧
    (COMMUTATION_TIMING_ENUM.map Prod.fst).Nodup ∧
    (BEACON_DELAY_ENUM.map Prod.fst).Nodup ∧
    (DEMAG_COMPENSATION_ENUM.map Prod.fst).Nodup ∧
    (TEMPERATURE_PROTECTION_ENUM.map Prod.fst).Nodup := by
  refine ⟨?_, ?_, ?_, ?_, ?_, ?_, ?_⟩ <;> decide

theorem u16be_pair (a b : Nat) (ha : a < 256) (hb : b < 256) :
    u16be (a * 256 + b) = [a, b] := by
  unfold u16be
  have h1 : (a * 256 + b) / 256 % 256 = a := by omega
  have h2 : (a * 256 + b) % 256 = b := by omega
  rw [h1, h2]

theorem eepromParse_short (input : List Nat) (h : input.length < 112) :
    eepromParse input = none := by
  unfold eepromParse
  rw [if_neg (by omega)]

theorem eepromParse_characterization (input : List Nat) (hlen : 112 ≤ input.length) :
    ((eepromParse input).isSome ↔
      (utf8Valid (eeText input 0x40) && utf8Valid (eeText input 0x50) &&
       utf8Valid (eeText input 0x60)) = true) ∧
    ∀ e, eepromParse input = some e →
      e = ⟨.int (eeByte input 0x00), .int (eeByte input 0x01), .int (eeByte input 0x02),
            enumDecode STARTUP_POWER_ENUM (eeByte input 0x09),
            enumDecode MOTOR_DIRECTION_ENUM (eeByte input 0x0B),
            enumDecode MODE16_ENUM (eeByte input 0x0D * 256 + eeByte input 0x0E),
            .bool (eeByte input 0x0F ≠ 0),
            enumDecode COMMUTATION_TIMING_ENUM (eeByte input 0x15),
            .int (eeByte input 0x19), .int (eeByte input 0x1A),
            .int (eeByte input 0x1B), .int (eeByte input 0x1C),
            enumDecode BEACON_DELAY_ENUM (eeByte input 0x1D),
            enumDecode DEMAG_COMPENSATION_ENUM (eeByte input 0x1F),
            .int (eeByte input 0x21),
            enumDecode TEMPERATURE_PROTECTION_ENUM (eeByte input 0x23),
            .bool (eeByte input 0x24 ≠ 0), .bool (eeByte input 0x27 ≠ 0),
            .bool (eeByte input 0x28 ≠ 0),
            .bytes (eeText input 0x40), .bytes (eeText input 0x50),
            .bytes (eeText input 0x60)⟩ := by
  constructor
  · unfold eepromParse
    rw [if_pos hlen]
    by_cases hv : (utf8Valid (eeText input 0x40) && utf8Valid (eeText input 0x50) &&
        utf8Valid (eeText input 0x60)) = true
    · rw [if_pos hv]
      simpa using hv
    · rw [if_neg hv]
      simpa using hv
  · intro e he
    unfold eepromParse at he
    rw [if_pos hlen] at he
    by_cases hv : (utf8Valid (eeText input 0x40) && utf8Valid (eeText input 0x50) &&
        utf8Valid (eeText input 0x60)) = true
    · rw [if_pos hv] at he
      exact (Option.some_injective _ he).symm
    · rw [if_neg hv] at he
      simp at he

theorem byteBuild_int (x : Nat) (h : x < 256) : byteBuild (.int x) = some x := by
  show (if x < 256 then some x else none) = some x
  rw [if_pos h]

theorem flagBuild_bool (p : Prop) [Decidable p] :
    flagBuild (.bool (decide p)) = [if p then 1 else 0] := by
  unfold flagBuild pyTruthy
  by_cases h : p <;> simp [h]

theorem paddedStringBuild_eeText (input : List Nat) (off : Nat)
    (hoff : off + 16 ≤ input.length) :
    paddedStringBuild (.bytes (eeText input off)) = some ((input.drop off).take 16) := by
  have hlen16 : ((input.drop off).take 16).length = 16 := by
    simp only [List.length_take, List.length_drop]
    omega
  have hle := rstrip0_length_le ((input.drop off).take 16)
  unfold paddedStringBuild eeText
  dsimp only
  rw [if_pos (by omega)]
  congr 1
  have h := rstrip0_append_replicate ((input.drop off).take 16)
  rw [hlen16] at h
  exact h

theorem drop_take_one (l : List Nat) (k : Nat) (h : k < l.length) :
    (l.drop k).take 1 = [l.getD k 0] := by
  rw [drop_take_succ l k 0 h]
  rfl

theorem drop_take_two (l : List Nat) (k : Nat) (h : k + 1 < l.length) :
    (l.drop k).take 2 = [l.getD k 0, l.getD (k + 1) 0] := by
  rw [drop_take_succ l k 1 (by omega), drop_take_one l (k + 1) (by omega)]

theorem drop_take_five (l : List Nat) (k : Nat) (h : k + 4 < l.length) :
    (l.drop k).take 5 = [l.getD k 0, l.getD (k + 1) 0, l.getD (k + 2) 0,
      l.getD (k + 3) 0, l.getD (k + 4) 0] := by
  rw [drop_take_succ l k 4 (by omega), drop_take_succ l (k + 1) 3 (by omega),
    drop_take_succ l (k + 2) 2 (by omega), drop_take_two l (k + 3) (by omega)]

theorem take_three (l : List Nat) (h : 2 < l.length) :
    l.take 3 = [l.getD 0 0, l.getD 1 0, l.getD 2 0] := by
  have h0 : l.take 3 = (l.drop 0).take 3 := by rw [List.drop_zero]
  rw [h0, drop_take_succ l 0 2 (by omega), drop_take_two l 1 (by omega)]

/-- The bytes `EEPROM_LAYOUT.build` writes for an image that was decoded
from `input`: every field region reproduces the original bytes, except
the four `Flag` bytes which are canonicalized to `0x01`/`0x00`, and
every reserved region is written as `0xFF` bytes. -/
theorem eepromBuild_canonical (input : List Nat) (e : EepromConfig)
    (hlen : input.length = 112) (hbytes : ∀ b ∈ input, b < 256)
    (hdec : eepromParse input = some e) :
    eepromBuild e = some (
      input.take 3 ++ pad 6 ++ (input.drop 0x09).take 1 ++ pad 1 ++
      (input.drop 0x0B).take 1 ++ pad 1 ++ (input.drop 0x0D).take 2 ++
      [if eeByte input 0x0F ≠ 0 then 1 else 0] ++ pad 5 ++
      (input.drop 0x15).take 1 ++ pad 3 ++ (input.drop 0x19).take 5 ++ pad 1 ++
      (input.drop 0x1F).take 1 ++ pad 1 ++ (input.drop 0x21).take 1 ++ pad 1 ++
      (input.drop 0x23).take 1 ++ [if eeByte input 0x24 ≠ 0 then 1 else 0] ++
      pad 2 ++ [if eeByte input 0x27 ≠ 0 then 1 else 0] ++
      [if eeByte input 0x28 ≠ 0 then 1 else 0] ++ pad 23 ++
      (input.drop 0x40).take 16 ++ (input.drop 0x50).take 16 ++
      (input.drop 0x60).take 16) := by
  obtain ⟨hn1, hn2, hn3, hn4, hn5, hn6, hn7⟩ := eeprom_tables_nodup
  have he := (eepromParse_characterization input (by omega)).2 e hdec
  subst he
  have hb : ∀ k : Nat, k < 112 → eeByte input k < 256 := fun k hk =>
    getD_lt_of_forall_lt hbytes (by omega)
  have hB0 := byteBuild_int (eeByte input 0x00) (hb 0x00 (by norm_num))
  have hB1 := byteBuild_int (eeByte input 0x01) (hb 0x01 (by norm_num))
  have hB2 := byteBuild_int (eeByte input 0x02) (hb 0x02 (by norm_num))
  have hSp := enumByteBuild_enumDecode STARTUP_POWER_ENUM hn1 (eeByte input 0x09)
    (hb 0x09 (by norm_num))
  have hMd := enumByteBuild_enumDecode MOTOR_DIRECTION_ENUM hn2 (eeByte input 0x0B)
    (hb 0x0B (by norm_num))
  have hMo := enumU16Build_enumDecode MODE16_ENUM hn3
    (eeByte input 0x0D * 256 + eeByte input 0x0E)
    (by have := hb 0x0D (by norm_num); have := hb 0x0E (by norm_num); omega)
  have hhead : eepromBuildHead
      ⟨.int (eeByte input 0x00), .int (eeByte input 0x01), .int (eeByte input 0x02),
       enumDecode STARTUP_POWER_ENUM (eeByte input 0x09),
       enumDecode MOTOR_DIRECTION_ENUM (eeByte input 0x0B),
       enumDecode MODE16_ENUM (eeByte input 0x0D * 256 + eeByte input 0x0E),
       .bool (eeByte input 0x0F ≠ 0),
       enumDecode COMMUTATION_TIMING_ENUM (eeByte input 0x15),
       .int (eeByte input 0x19), .int (eeByte input 0x1A),
       .int (eeByte input 0x1B), .int (eeByte input 0x1C),
       enumDecode BEACON_DELAY_ENUM (eeByte input 0x1D),
       enumDecode DEMAG_COMPENSATION_ENUM (eeByte input 0x1F),
       .int (eeByte input 0x21),
       enumDecode TEMPERATURE_PROTECTION_ENUM (eeByte input 0x23),
       .bool (eeByte input 0x24 ≠ 0), .bool (eeByte input 0x27 ≠ 0),
       .bool (eeByte input 0x28 ≠ 0),
       .bytes (eeText input 0x40), .bytes (eeText input 0x50),
       .bytes (eeText input 0x60)⟩
      = some ([eeByte input 0x00, eeByte input 0x01, eeByte input 0x02] ++ pad 6 ++
              [eeByte input 0x09] ++ pad 1 ++ [eeByte input 0x0B] ++ pad 1 ++
              [eeByte input 0x0D, eeByte input 0x0E] ++
              [if eeByte input 0x0F ≠ 0 then 1 else 0]) := by
    unfold eepromBuildHead
    dsimp only
    simp only [hB0, hB1, hB2, hSp, hMd, hMo, Option.bind_eq_bind, Option.some_bind]
    rw [u16be_pair (eeByte input 0x0D) (eeByte input 0x0E)
      (hb 0x0D (by norm_num)) (hb 0x0E (by norm_num)), flagBuild_bool]
  have hCt := enumByteBuild_enumDecode COMMUTATION_TIMING_ENUM hn4 (eeByte input 0x15)
    (hb 0x15 (by norm_num))
  have hP1 := byteBuild_int (eeByte input 0x19) (hb 0x19 (by norm_num))
  have hP2 := byteBuild_int (eeByte input 0x1A) (hb 0x1A (by norm_num))
  have hP3 := byteBuild_int (eeByte input 0x1B) (hb 0x1B (by norm_num))
  have hP4 := byteBuild_int (eeByte input 0x1C) (hb 0x1C (by norm_num))
  have hBd := enumByteBuild_enumDecode BEACON_DELAY_ENUM hn5 (eeByte input 0x1D)
    (hb 0x1D (by norm_num))
  have hDc := enumByteBuild_enumDecode DEMAG_COMPENSATION_ENUM hn6 (eeByte input 0x1F)
    (hb 0x1F (by norm_num))
  have hPc := byteBuild_int (eeByte input 0x21) (hb 0x21 (by norm_num))
  have hTp := enumByteBuild_enumDecode TEMPERATURE_PROTECTION_ENUM hn7
    (eeByte input 0x23) (hb 0x23 (by norm_num))
  have hmid : eepromBuildMid
      ⟨.int (eeByte input 0x00), .int (eeByte input 0x01), .int (eeByte input 0x02),
       enumDecode STARTUP_POWER_ENUM (eeByte input 0x09),
       enumDecode MOTOR_DIRECTION_ENUM (eeByte input 0x0B),
       enumDecode MODE16_ENUM (eeByte input 0x0D * 256 + eeByte input 0x0E),
       .bool (eeByte input 0x0F ≠ 0),
       enumDecode COMMUTATION_TIMING_ENUM (eeByte input 0x15),
       .int (eeByte input 0x19), .int (eeByte input 0x1A),
       .int (eeByte input 0x1B), .int (eeByte input 0x1C),
       enumDecode BEACON_DELAY_ENUM (eeByte input 0x1D),
       enumDecode DEMAG_COMPENSATION_ENUM (eeByte input 0x1F),
       .int (eeByte input 0x21),
       enumDecode TEMPERATURE_PROTECTION_ENUM (eeByte input 0x23),
       .bool (eeByte input 0x24 ≠ 0), .bool (eeByte input 0x27 ≠ 0),
       .bool (eeByte input 0x28 ≠ 0),
       .bytes (eeText input 0x40), .bytes (eeText input 0x50),
       .bytes (eeText input 0x60)⟩
      = some (pad 5 ++ [eeByte input 0x15] ++ pad 3 ++
              [eeByte input 0x19, eeByte input 0x1A, eeByte input 0x1B,
               eeByte input 0x1C, eeByte input 0x1D] ++ pad 1 ++
              [eeByte input 0x1F] ++ pad 1 ++ [eeByte input 0x21] ++ pad 1 ++
              [eeByte input 0x23] ++ [if eeByte input 0x24 ≠ 0 then 1 else 0] ++
              pad 2 ++ [if eeByte input 0x27 ≠ 0 then 1 else 0] ++
              [if eeByte input 0x28 ≠ 0 then 1 else 0] ++ pad 23) := by
    unfold eepromBuildMid
    dsimp only
    simp only [hCt, hP1, hP2, hP3, hP4, hBd, hDc, hPc, hTp, Option.bind_eq_bind,
      Option.some_bind]
    rw [flagBuild_bool, flagBuild_bool, flagBuild_bool]
  have hT1 := paddedStringBuild_eeText input 0x40 (by omega)
  have hT2 := paddedStringBuild_eeText input 0x50 (by omega)
  have hT3 := paddedStringBuild_eeText input 0x60 (by omega)
  have htext : eepromBuildText
      ⟨.int (eeByte input 0x00), .int (eeByte input 0x01), .int (eeByte input 0x02),
       enumDecode STARTUP_POWER_ENUM (eeByte input 0x09),
       enumDecode MOTOR_DIRECTION_ENUM (eeByte input 0x0B),
       enumDecode MODE16_ENUM (eeByte input 0x0D * 256 + eeByte input 0x0E),
       .bool (eeByte input 0x0F ≠ 0),
       enumDecode COMMUTATION_TIMING_ENUM (eeByte input 0x15),
       .int (eeByte input 0x19), .int (eeByte input 0x1A),
       .int (eeByte input 0x1B), .int (eeByte input 0x1C),
       enumDecode BEACON_DELAY_ENUM (eeByte input 0x1D),
       enumDecode DEMAG_COMPENSATION_ENUM (eeByte input 0x1F),
       .int (eeByte input 0x21),
       enumDecode TEMPERATURE_PROTECTION_ENUM (eeByte input 0x23),
       .bool (eeByte input 0x24 ≠ 0), .bool (eeByte input 0x27 ≠ 0),
       .bool (eeByte input 0x28 ≠ 0),
       .bytes (eeText input 0x40), .bytes (eeText input 0x50),
       .bytes (eeText input 0x60)⟩
      = some ((input.drop 0x40).take 16 ++ (input.drop 0x50).take 16 ++
              (input.drop 0x60).take 16) := by
    unfold eepromBuildText
    dsimp only
    simp only [hT1, hT2, hT3, Option.bind_eq_bind, Option.some_bind]
  unfold eepromBuild
  simp only [hhead, hmid, htext, Option.bind_eq_bind, Option.some_bind]
  rw [take_three input (by omega), drop_take_one input 0x09 (by omega),
    drop_take_one input 0x0B (by omega), drop_take_two input 0x0D (by omega),
    drop_take_one input 0x15 (by omega), drop_take_five input 0x19 (by omega),
    drop_take_one input 0x1F (by omega), drop_take_one input 0x21 (by omega),
    drop_take_one input 0x23 (by omega)]
  simp only [List.append_assoc, List.cons_append, List.nil_append, eeByte,
    Nat.reduceAdd]

/-- **C2 counterexample.** The claim says every non-reserved field
region of the re-encoded image reproduces the original bytes exactly.
The four `Flag` fields are canonicalized instead: `imgFlagTwo` is a
112-byte image whose `programming_by_tx` byte (offset 0x0F, a
non-reserved field region) is 2; it decodes successfully (`Flag` parses
any nonzero byte to `True`) and re-encodes with byte 1 at offset 0x0F. -/
theorem eeprom_flag_roundtrip_counterexample :
    imgFlagTwo.length = 112 ∧
    imgFlagTwo.getD 0x0F 0 = 2 ∧
    ∃ e out, eepromParse imgFlagTwo = some e ∧ eepromBuild e = some out ∧
      out.getD 0x0F 0 = 1 :=
  ⟨rfl, rfl, _, _, rfl, rfl, rfl⟩

/-- **C2 (amended).** For every 112-byte configuration image (a list of
byte values) that decodes successfully, encoding the decoded image
yields exactly 112 bytes in which every non-reserved, non-`Flag` field
region reproduces the original bytes exactly, every reserved region is
filled with `0xFF` (`pad`) regardless of the original reserved bytes,
and each of the four `Flag` bytes (offsets 0x0F, 0x24, 0x27, 0x28)
re-encodes to 1 exactly when the original byte was nonzero and to 0
otherwise. -/
theorem eeprom_roundtrip_amended (input : List Nat) (e : EepromConfig)
    (hlen : input.length = 112) (hbytes : ∀ b ∈ input, b < 256)
    (hdec : eepromParse input = some e) :
    ∃ out, eepromBuild e = some out ∧ out.length = 112 ∧
      out = input.take 3 ++ pad 6 ++ (input.drop 0x09).take 1 ++ pad 1 ++
        (input.drop 0x0B).take 1 ++ pad 1 ++ (input.drop 0x0D).take 2 ++
        [if eeByte input 0x0F ≠ 0 then 1 else 0] ++ pad 5 ++
        (input.drop 0x15).take 1 ++ pad 3 ++ (input.drop 0x19).take 5 ++ pad 1 ++
        (input.drop 0x1F).take 1 ++ pad 1 ++ (input.drop 0x21).take 1 ++ pad 1 ++
        (input.drop 0x23).take 1 ++ [if eeByte input 0x24 ≠ 0 then 1 else 0] ++
        pad 2 ++ [if eeByte input 0x27 ≠ 0 then 1 else 0] ++
        [if eeByte input 0x28 ≠ 0 then 1 else 0] ++ pad 23 ++
        (input.drop 0x40).take 16 ++ (input.drop 0x50).take 16 ++
        (input.drop 0x60).take 16 := by
  refine ⟨_, eepromBuild_canonical input e hlen hbytes hdec, ?_, rfl⟩
  simp only [List.length_append, List.length_take, List.length_drop,
    List.length_cons, List.length_nil, pad, List.length_replicate, hlen]
  omega

/-- **C2 witness.** The amended round-trip applied to the concrete
all-zero 112-byte image, whose decoded form is `eepromZero`. -/
theorem eeprom_roundtrip_amended_witness :
    ∃ out, eepromBuild eepromZero = some out ∧ out.length = 112 := by
  obtain ⟨out, h1, h2, h3⟩ := eeprom_roundtrip_amended zeros112 eepromZero rfl
    (by
      intro b hb
      simp only [zeros112, List.mem_replicate] at hb
      omega) rfl
  exact ⟨out, h1, h2⟩

/-- **C5 counterexample.** The claim says decoding raises whenever the
input is not exactly 112 bytes and whenever an enumerated field byte is
outside its legal set.  Both fail: a 113-byte input parses successfully
(construct ignores trailing bytes), and the all-zero image decodes with
`startup_power` byte 0 — outside the enum's legal value set {1..13} —
passed through as the raw integer 0 rather than raising. -/
theorem eeprom_decode_claim_counterexample :
    (zeros112 ++ [0]).length = 113 ∧
    (eepromParse (zeros112 ++ [0])).isSome = true ∧
    (eepromParse zeros112).map (fun e => e.startup_power) = some (.int 0) ∧
    enumLookupValue STARTUP_POWER_ENUM 0 = none :=
  ⟨rfl, rfl, rfl, rfl⟩

/-- **C5 (amended).** Decoding a configuration image raises a Decoding
error whenever the input is shorter than 112 bytes; an input of 112 or
more bytes parses its 112-byte prefix and succeeds exactly when the
three 16-byte text regions are valid UTF-8 after stripping trailing NUL
bytes — enumerated field bytes outside their legal sets decode to raw
integers and never raise. -/
theorem eeprom_decode_error_conditions (input : List Nat) :
    (input.length < 112 → eepromParse input = none) ∧
    (112 ≤ input.length →
      ((eepromParse input).isSome ↔
        (utf8Valid (eeText input 0x40) && utf8Valid (eeText input 0x50) &&
         utf8Valid (eeText input 0x60)) = true)) :=
  ⟨eepromParse_short input, fun h => (eepromParse_characterization input h).1⟩

/-- **C5 witness.** The error conditions at concrete inputs: a 50-byte
input fails to decode, and the all-zero 112-byte image satisfies the
success characterization. -/
theorem eeprom_decode_error_conditions_witness :
    eepromParse (List.replicate 50 0) = none ∧
    ((eepromParse zeros112).isSome ↔
      (utf8Valid (eeText zeros112 0x40) && utf8Valid (eeText zeros112 0x50) &&
       utf8Valid (eeText zeros112 0x60)) = true) :=
  ⟨(eeprom_decode_error_conditions (List.replicate 50 0)).1 (by simp),
   (eeprom_decode_error_conditions zeros112).2 (by simp [zeros112])⟩

theorem applyParams_unknown_go (params : List (String × PyVal))
    (h : ∀ kv ∈ params, ¬(kv.1 ∈ COMMON_CONFIG_FIELDS ∨ kv.1 ∈ ESC_CONFIG_FIELDS)) :
    ∀ (e : EepromConfig) (w : List String),
      params.foldl
        (fun acc kv =>
          if kv.1 ∈ COMMON_CONFIG_FIELDS ∨ kv.1 ∈ ESC_CONFIG_FIELDS then
            (setField acc.1 kv.1 kv.2, acc.2)
          else
            (acc.1, acc.2 ++ [invalidParamWarning kv.1])) (e, w)
      = (e, w ++ params.map (fun kv => invalidParamWarning kv.1)) := by
  induction params with
  | nil =>
    intro e w
    simp
  | cons kv rest ih =>
    intro e w
    rw [List.foldl_cons]
    dsimp only
    rw [if_neg (h kv (List.mem_cons_self kv rest)),
      ih (fun x hx => h x (List.mem_cons_of_mem kv hx)) e
        (w ++ [invalidParamWarning kv.1])]
    simp

theorem applyParams_unknown (e : EepromConfig) (params : List (String × PyVal))
    (h : ∀ kv ∈ params, kv.1 ∉ COMMON_CONFIG_FIELDS ∧ kv.1 ∉ ESC_CONFIG_FIELDS) :
    applyParams e params = (e, params.map (fun kv => invalidParamWarning kv.1)) := by
  have h2 : ∀ kv ∈ params,
      ¬(kv.1 ∈ COMMON_CONFIG_FIELDS ∨ kv.1 ∈ ESC_CONFIG_FIELDS) := by
    intro kv hkv hor
    rcases hor with h1 | h1
    exacts [(h kv hkv).1 h1, (h kv hkv).2 h1]
  unfold applyParams
  simpa using applyParams_unknown_go params h2 e []

/-- **C8.** For every device image that decodes and every parameter list
whose names all belong to neither the common-config group nor the
esc-config group, `write_config` emits one unknown-parameter warning per
supplied name (in order), skips them all, and writes back exactly the
encoding of the unmodified decoded configuration — every recognized
field keeps the value read from the device, and no Encoding error is
ever raised for an unknown field name. -/
theorem write_config_unknown_params (image : List Nat) (e : EepromConfig)
    (params : List (String × PyVal))
    (hlen : image.length = 112) (hbytes : ∀ b ∈ image, b < 256)
    (hdec : eepromParse image = some e)
    (hunknown : ∀ kv ∈ params,
      kv.1 ∉ COMMON_CONFIG_FIELDS ∧ kv.1 ∉ ESC_CONFIG_FIELDS) :
    ∃ out, write_config image params
        = .ok (out, params.map (fun kv => invalidParamWarning kv.1)) ∧
      eepromBuild e = some out := by
  have hbuild := eepromBuild_canonical image e hlen hbytes hdec
  refine ⟨_, ?_, hbuild⟩
  unfold write_config
  rw [hdec]
  dsimp only
  rw [applyParams_unknown e params hunknown]
  dsimp only
  rw [hbuild]

/-- **C8 witness.** `write_config` on the all-zero image with the single
unknown parameter `unknown_field=1`: one warning, no Encoding error, and
the written bytes are the re-encoding of the unmodified configuration. -/
theorem write_config_unknown_params_witness :
    ∃ out, write_config zeros112 [("unknown_field", .int 1)]
        = .ok (out, ["Invalid parameter unknown_field"]) ∧
      eepromBuild eepromZero = some out :=
  write_config_unknown_params zeros112 eepromZero [("unknown_field", .int 1)] rfl
    (by
      intro b hb
      simp only [zeros112, List.mem_replicate] at hb
      omega) rfl
    (by
      intro kv hkv
      simp only [List.mem_singleton] at hkv
      rw [hkv]
      exact ⟨by decide, by decide⟩)

/-- **C10.** `probe_esc` never returns normally for a valid instance
index: after `init_flash` succeeds — even reporting a silabs device —
the body calls `self.reset_esc()` with no positional argument, while
`reset_esc(self, esc)` requires one, so Python raises `TypeError`
before the interface-type check is ever reached, whatever `reset_esc`
itself would do. -/
theorem probe_esc_always_raises (count esc : Nat)
    (resetBehavior : Nat → Except String Unit) (h : esc < count) :
    probe_esc count esc (.ok "silabs") resetBehavior
      = .error "TypeError: reset_esc() missing 1 required positional argument: 'esc'" ∧
    ∀ outcome : PyOutcome, probe_esc count esc outcome resetBehavior ≠ .ok () := by
  constructor
  · unfold probe_esc
    rw [if_pos h]
    rfl
  · intro outcome
    unfold probe_esc
    rw [if_pos h]
    cases outcome with
    | exn msg => simp
    | ok t => simp [pyCallOneArg]

/-- **C10 witness.** `probe_esc` at the concrete instance 0 of 4 with a
successful silabs `init_flash` and a reset oracle that would succeed:
the call still raises the `TypeError`. -/
theorem probe_esc_always_raises_witness :
    probe_esc 4 0 (.ok "silabs") (fun _ => .ok ())
      = .error "TypeError: reset_esc() missing 1 required positional argument: 'esc'" ∧
    ∀ outcome : PyOutcome, probe_esc 4 0 outcome (fun _ => .ok ()) ≠ .ok () :=
  probe_esc_always_raises 4 0 (fun _ => .ok ()) (by decide)

end PyBlheli
